import Mathlib

/-!
Verification of `tfm-salinidad-arousa` ETL scripts against their
natural-language description.

Shallow embedding of the three scripts the claims are about:

* `src/etl/download_bulk.py`    — bulk NetCDF downloader (retry/backoff,
  resumability, per-date statistics);
* `src/etl/procesar_ctd.py`     — CTD cast parser (positional header
  heuristic `detectar_inicio_datos`);
* `src/data/01_unificar_intecmar.py` — INTECMAR station unifier
  (file-name matching, column normalisation, range validation,
  duplicate removal and sorting).

Machine floats of the Python sources are modelled as `ℚ`; the file system
is modelled as explicit `Option` state; raised exceptions are modelled as
`Except`/`Option` results; Python dicts (which iterate in insertion
order) are modelled as association lists in source order.
-/

namespace TfmArousa

/-- Python's `in`-operator on strings, as used all over the repository:
`needle in hay` is contiguous-substring containment.  Implemented over
character lists. -/
def subEn : List Char → List Char → Bool
  | _, [] => false
  | needle, hay@(_ :: resto) =>
    (hay.take needle.length == needle) || subEn needle resto

/-- `needle ∈ hay` for strings; the empty needle is contained in
everything (as in Python). -/
def contiene (hay needle : String) : Bool :=
  needle.data.isEmpty || subEn needle.data hay.data

/-- Python `str.lower()` restricted to the alphabet the scripts use:
ASCII letters plus the Spanish accented capitals that occur in the
sources (`Á É Í Ó Ú Ü Ñ Ç`).  (Full Unicode case folding is not needed:
no claim depends on other characters.) -/
def pyLowerChar (c : Char) : Char :=
  if 'A' ≤ c ∧ c ≤ 'Z' then Char.ofNat (c.toNat + 32)
  else if c = 'Á' then 'á'
  else if c = 'É' then 'é'
  else if c = 'Í' then 'í'
  else if c = 'Ó' then 'ó'
  else if c = 'Ú' then 'ú'
  else if c = 'Ü' then 'ü'
  else if c = 'Ñ' then 'ñ'
  else if c = 'Ç' then 'ç'
  else c

/-- Python `str.lower()`. -/
def pyLower (s : String) : String :=
  ⟨s.data.map pyLowerChar⟩

/-- The whitespace characters Python's `str.strip()` removes (ASCII). -/
def esEspacio (c : Char) : Bool :=
  c = ' ' || c = '\t' || c = '\n' || c = '\r' || c = '\x0b' || c = '\x0c'

/-- Python `str.strip()`. -/
def recortar (s : String) : String :=
  ⟨((s.data.dropWhile esEspacio).reverse.dropWhile esEspacio).reverse⟩

/-- Python `str.startswith(pre)`. -/
def empiezaCon (s pre : String) : Bool :=
  s.data.take pre.data.length == pre.data

/-- Python `str.replace(',', '.')` (a single-character replacement, as
the scripts use it). -/
def cambiarComaPorPunto (s : String) : String :=
  ⟨s.data.map (fun c => if c = ',' then '.' else c)⟩

/-- Python `str.split(sep)` for a one-character separator (the `'\t'`
of `read_csv(sep='\t')`). -/
def separarAux (sep : Char) : List Char → List Char → List String
  | [], acc => [⟨acc.reverse⟩]
  | c :: resto, acc =>
    if c = sep then ⟨acc.reverse⟩ :: separarAux sep resto []
    else separarAux sep resto (c :: acc)

/-- Split a string at every occurrence of `sep`. -/
def separarPor (sep : Char) (s : String) : List String :=
  separarAux sep s.data []

/-! ## `src/etl/download_bulk.py` -/

namespace DownloadBulk

/-- `Config.MIN_FILE_SIZE` (bytes). -/
def MIN_FILE_SIZE : Nat := 1000

/-- `Config.MAX_RETRIES` default (env override absent). -/
def MAX_RETRIES : Nat := 3

/-- `Config.RETRY_BASE_DELAY` (seconds). -/
def RETRY_BASE_DELAY : ℚ := 2

/-- What one invocation of the function passed to
`exponential_backoff_retry` does on a given attempt: return a value,
raise one of the recoverable exception types
(`requests.Timeout, ConnectionError, OSError`), or raise some other
(non-recoverable) exception.  Exceptions carry an identifier so that
"re-raises the *last* exception" is observable. -/
inductive AttemptOutcome (α : Type) where
  | ok (v : α)
  | recoverable (e : Nat)
  | fatal (e : Nat)
deriving DecidableEq, Repr

/-- How a call of `exponential_backoff_retry` terminates. `raisedNone`
is the `raise None` `TypeError` that the final `raise last_exception`
produces when the loop body never ran (`max_retries = 0`). -/
inductive RetryResult (α : Type) where
  | success (v : α)
  | raisedRecoverable (e : Nat)
  | raisedFatal (e : Nat)
  | raisedNone
deriving DecidableEq, Repr

/-- Observable trace of `exponential_backoff_retry`: result, number of
calls to `func`, and the argument of every `time.sleep` in order. -/
structure RetryTrace (α : Type) where
  result : RetryResult α
  attempts : Nat
  sleeps : List ℚ
deriving DecidableEq, Repr

/-- The final `raise last_exception` after the loop of
`exponential_backoff_retry`: re-raise the stored recoverable exception,
or `raise None` (a `TypeError`) if none was stored. -/
def relanzarUltima (lastExc : Option Nat) : RetryResult α :=
  match lastExc with
  | some e => .raisedRecoverable e
  | none => .raisedNone

/-- The `for attempt in range(max_retries)` loop of
`exponential_backoff_retry` (lines 182–209), entered at iteration
`attempt`, with the currently stored `last_exception` and the sleeps
performed so far.  `delay = base_delay * (2 ** attempt)` is slept only
when `attempt < max_retries - 1`. -/
def retryLoop (outcomes : Nat → AttemptOutcome α) (maxRetries : Nat) (baseDelay : ℚ)
    (attempt : Nat) (lastExc : Option Nat) (sleeps : List ℚ) : RetryTrace α :=
  if _h : attempt < maxRetries then
    match outcomes attempt with
    | .ok v => ⟨.success v, attempt + 1, sleeps⟩
    | .recoverable e =>
      if attempt < maxRetries - 1 then
        retryLoop outcomes maxRetries baseDelay (attempt + 1) (some e)
          (sleeps ++ [baseDelay * 2 ^ attempt])
      else
        retryLoop outcomes maxRetries baseDelay (attempt + 1) (some e) sleeps
    | .fatal e => ⟨.raisedFatal e, attempt + 1, sleeps⟩
  else
    ⟨relanzarUltima lastExc, attempt, sleeps⟩
termination_by maxRetries - attempt

/-- `exponential_backoff_retry(func, max_retries, base_delay, logger, ...)`:
the wrapped function's behaviour on the k-th call is `outcomes k`. -/
def exponential_backoff_retry (outcomes : Nat → AttemptOutcome α)
    (maxRetries : Nat) (baseDelay : ℚ) : RetryTrace α :=
  retryLoop outcomes maxRetries baseDelay 0 none []

/-- If every remaining attempt raises a recoverable error, the loop runs
to `maxRetries`, sleeping `base * 2 ^ k` after every non-final attempt,
and re-raises the exception of the last attempt. -/
lemma retryLoop_todo_recuperable {α : Type} (outcomes : Nat → AttemptOutcome α)
    (m : Nat) (base : ℚ) (e : Nat → Nat) :
    ∀ (d i : Nat) (le : Option Nat) (acc : List ℚ), m - i = d → i < m →
      (∀ k, i ≤ k → k < m → outcomes k = .recoverable (e k)) →
      retryLoop outcomes m base i le acc =
        ⟨.raisedRecoverable (e (m - 1)), m,
         acc ++ (List.range' i (m - 1 - i)).map (fun k => base * 2 ^ k)⟩ := by
  intro d
  induction d with
  | zero => intro i le acc hd hi _; omega
  | succ d ih =>
    intro i le acc hd hi hrec
    rw [retryLoop.eq_def]
    simp only [hi, dite_true, hrec i (Nat.le_refl i) hi]
    by_cases hlast : i < m - 1
    · simp only [hlast, if_true]
      rw [ih (i + 1) (some (e i)) (acc ++ [base * 2 ^ i]) (by omega) (by omega)
        (fun k hk hk' => hrec k (by omega) hk')]
      have hn : m - 1 - i = (m - 1 - (i + 1)) + 1 := by omega
      rw [hn, List.range'_succ, List.map_cons, List.append_assoc, List.singleton_append]
    · simp only [hlast, if_false]
      have hi1 : i = m - 1 := by omega
      rw [retryLoop.eq_def]
      have : ¬ i + 1 < m := by omega
      simp only [this, dite_false]
      have : i + 1 = m := by omega
      rw [this, hi1]
      have : m - 1 - (m - 1) = 0 := by omega
      rw [this]
      simp [relanzarUltima]

/-- If the attempts before `k` all raise recoverable errors and attempt
`k` returns `v`, the loop returns `v` after `k + 1` calls. -/
lemma retryLoop_exito {α : Type} (outcomes : Nat → AttemptOutcome α)
    (m : Nat) (base : ℚ) (e : Nat → Nat) (k : Nat) (v : α)
    (hk : k < m) (hok : outcomes k = .ok v) :
    ∀ (d i : Nat) (le : Option Nat) (acc : List ℚ), k - i = d → i ≤ k →
      (∀ j, i ≤ j → j < k → outcomes j = .recoverable (e j)) →
      retryLoop outcomes m base i le acc =
        ⟨.success v, k + 1, acc ++ (List.range' i (k - i)).map (fun j => base * 2 ^ j)⟩ := by
  intro d
  induction d with
  | zero =>
    intro i le acc hd hi _
    have hik : i = k := by omega
    subst hik
    rw [retryLoop.eq_def]
    simp only [hk, dite_true, hok]
    simp
  | succ d ih =>
    intro i le acc hd hi hrec
    have hikl : i < k := by omega
    rw [retryLoop.eq_def]
    have him : i < m := by omega
    simp only [him, dite_true, hrec i (Nat.le_refl i) hikl]
    have hlast : i < m - 1 := by omega
    simp only [hlast, if_true]
    rw [ih (i + 1) (some (e i)) (acc ++ [base * 2 ^ i]) (by omega) (by omega)
      (fun j hj hj' => hrec j (by omega) hj')]
    have hn : k - i = (k - (i + 1)) + 1 := by omega
    rw [hn, List.range'_succ, List.map_cons, List.append_assoc, List.singleton_append]

/-- C1: with `max_retries ≥ 1` (enforced by `Config.__post_init__`):
(1) if every attempt raises a recoverable error
(`requests.Timeout, ConnectionError, OSError`), the wrapper calls the
function exactly `max_retries` times, sleeps
`base_delay * 2 ^ attempt` seconds after each attempt except the last
one, and re-raises the exception of the last attempt;
(2) if attempt `k` returns normally after only recoverable failures,
its value is returned and no further attempt is made. -/
theorem c1_retry_backoff {α : Type} (outcomes : Nat → AttemptOutcome α)
    (maxRetries : Nat) (base : ℚ) (e : Nat → Nat)
    (hm : 1 ≤ maxRetries) :
    ((∀ k, k < maxRetries → outcomes k = .recoverable (e k)) →
      exponential_backoff_retry outcomes maxRetries base =
        ⟨.raisedRecoverable (e (maxRetries - 1)), maxRetries,
         (List.range (maxRetries - 1)).map (fun k => base * 2 ^ k)⟩) ∧
    (∀ k v, k < maxRetries → outcomes k = .ok v →
      (∀ j, j < k → outcomes j = .recoverable (e j)) →
      exponential_backoff_retry outcomes maxRetries base =
        ⟨.success v, k + 1, (List.range k).map (fun j => base * 2 ^ j)⟩) := by
  constructor
  · intro hrec
    rw [exponential_backoff_retry,
      retryLoop_todo_recuperable outcomes maxRetries base e maxRetries 0 none [] (by omega)
        (by omega) (fun j _ hj => hrec j hj)]
    rw [List.range_eq_range']
    simp
  · intro k v hk hok hrec
    rw [exponential_backoff_retry,
      retryLoop_exito outcomes maxRetries base e k v hk hok k 0 none [] (by omega) (by omega)
        (fun j _ hj => hrec j hj)]
    rw [List.range_eq_range']
    simp

/-- Witness for C1 at concrete inputs: three always-failing attempts
with base delay 2 give sleeps `[2, 4]` and re-raise the last error;
a success on the second attempt returns after two calls. -/
theorem c1_retry_backoff_witness :
    exponential_backoff_retry (fun k => (AttemptOutcome.recoverable k : AttemptOutcome Nat)) 3 2 =
      ⟨.raisedRecoverable 2, 3, [2, 4]⟩ ∧
    exponential_backoff_retry (fun k => if k = 1 then .ok 5 else AttemptOutcome.recoverable k) 3 2 =
      ⟨.success 5, 2, [2]⟩ := by
  constructor
  · have h := (c1_retry_backoff (fun k => (AttemptOutcome.recoverable k : AttemptOutcome Nat)) 3 2
      (fun k => k) (by norm_num)).1 (fun k _ => rfl)
    rw [h]
    norm_num [List.range_succ]
  · have h := (c1_retry_backoff (fun k => if k = 1 then .ok 5 else AttemptOutcome.recoverable k)
      3 2 (fun k => k) (by norm_num)).2 1 5 (by norm_num) (by norm_num)
      (fun j hj => by interval_cases j; rfl)
    rw [h]
    norm_num [List.range_succ]

/-- A NetCDF file as `validate_netcdf_file` can observe it: whether
`xr.open_dataset` succeeds, whether the dataset has a `'prec'` variable,
and that variable's `size`. -/
structure NcFile where
  readable : Bool
  hasPrec : Bool
  precSize : Nat
deriving DecidableEq, Repr

/-- `validate_netcdf_file` (lines 90–107): `True` iff the file opens,
contains `'prec'`, and `'prec'` is non-empty. -/
def validate_netcdf_file (f : NcFile) : Bool :=
  f.readable && f.hasPrec && (f.precSize != 0)

/-- A file on disk at the target path: its `st_size` and its contents
as NetCDF. -/
structure DiskFile where
  size : Nat
  nc : NcFile
deriving DecidableEq, Repr

/-- The behaviour of one call of `download_precipitation_data` on a
given URL: whether `xr.open_dataset(url)` succeeds, whether the remote
dataset has `'prec'`, whether `da_prec.to_netcdf(filepath)` completes
(when it does, `escrito` is the file it leaves on disk; when it raises,
at most a partial file is left, which the handler removes). -/
structure DlEnv where
  openOk : Bool
  hasPrec : Bool
  writeOk : Bool
  escrito : DiskFile
deriving DecidableEq, Repr

/-- `download_precipitation_data` (lines 138–180), as a function of its
environment and the file previously at the target path.  Returns the
boolean result and the final state of the target path (`none` =
no file).  Any raised exception is caught by the `except` block, which
deletes the target file if it exists and returns `False`; the
missing-`'prec'` case returns `False` without touching the disk. -/
def download_precipitation_data (env : DlEnv) (antes : Option DiskFile) :
    Bool × Option DiskFile :=
  if !env.openOk then
    (false, none)
  else if !env.hasPrec then
    (false, antes)
  else if env.writeOk then
    (true, some env.escrito)
  else
    (false, none)

/-- C3: `download_precipitation_data` is atomic on failure: whenever it
raises internally (unreadable dataset, write error), it returns `False`
and no file is left at the target path; and it returns `True` only when
the `'prec'` variable was fully written to the target path. -/
theorem c3_descarga_atomica (env : DlEnv) (antes : Option DiskFile) :
    ((env.openOk = false ∨ (env.hasPrec = true ∧ env.writeOk = false)) →
      download_precipitation_data env antes = (false, none)) ∧
    (∀ despues, download_precipitation_data env antes = (true, despues) →
      env.openOk = true ∧ env.hasPrec = true ∧ env.writeOk = true ∧
        despues = some env.escrito) := by
  constructor
  · rintro (h | ⟨h1, h2⟩)
    · simp [download_precipitation_data, h]
    · by_cases ho : env.openOk <;> simp [download_precipitation_data, h1, h2, ho]
  · intro despues h
    unfold download_precipitation_data at h
    by_cases ho : env.openOk <;> by_cases hp : env.hasPrec <;> by_cases hw : env.writeOk <;>
      simp [ho, hp, hw] at h <;> simp [ho, hp, hw, h]

/-- Witness for C3: a failing write leaves no file and returns `False`;
a successful run returns `True` with the written file on disk. -/
theorem c3_descarga_atomica_witness :
    download_precipitation_data ⟨true, true, false, ⟨2000, true, true, 24⟩⟩
        (some ⟨500, ⟨false, false, 0⟩⟩) = (false, none) ∧
    (⟨true, true, true, ⟨2000, true, true, 24⟩⟩ : DlEnv).openOk = true := by
  refine ⟨?_, rfl⟩
  exact (c3_descarga_atomica ⟨true, true, false, ⟨2000, true, true, 24⟩⟩
    (some ⟨500, ⟨false, false, 0⟩⟩)).1 (Or.inr ⟨rfl, rfl⟩)

/-- The `stats` dictionary of `main` (lines 241–247). -/
structure Stats where
  existentes : Nat
  descargados : Nat
  no_disponibles : Nat
  errores : Nat
  corruptos_reparados : Nat
deriving DecidableEq, Repr

/-- Side effects of one date iteration of `main`'s loop that the claims
observe: whether the server was contacted
(`check_remote_file_exists` / download), whether the pre-existing target
file was deleted, and whether a new file was written. -/
structure IterEffects where
  contactoServidor : Bool
  borroArchivo : Bool
  escribioArchivo : Bool
deriving DecidableEq, Repr

/-- Environment of one date iteration: the file currently at the
target path (if any), the outcome of `check_remote_file_exists`
(`some true` = 200, `some false` = 404, `none` = temporary error), and
the behaviour of the download should it be attempted. -/
structure IterEnv where
  archivo : Option DiskFile
  remoto : Option Bool
  descarga : DlEnv
deriving DecidableEq, Repr

/-- Steps 2–3 of the loop body (lines 283–319): the target file is
absent at this point (it never existed or was just deleted).  The
download call is `exponential_backoff_retry(download_precipitation_data,
…)`; since `download_precipitation_data` catches every exception and
returns a bool, every retry attempt returns normally. -/
def pasoDescarga (env : IterEnv) (s : Stats) (borro : Bool) :
    Stats × IterEffects × Option DiskFile :=
  match env.remoto with
  | some false =>
    ({s with no_disponibles := s.no_disponibles + 1}, ⟨true, borro, false⟩, none)
  | none =>
    ({s with errores := s.errores + 1}, ⟨true, borro, false⟩, none)
  | some true =>
    match (exponential_backoff_retry
        (fun _ => .ok (download_precipitation_data env.descarga none))
        MAX_RETRIES RETRY_BASE_DELAY).result with
    | .success (true, despues) =>
      ({s with descargados := s.descargados + 1}, ⟨true, borro, true⟩, despues)
    | .success (false, despues) =>
      ({s with errores := s.errores + 1}, ⟨true, borro, false⟩, despues)
    | _ =>
      ({s with errores := s.errores + 1}, ⟨true, borro, false⟩, none)

/-- One full date iteration of `main`'s loop (lines 251–319), starting
with step 1 (lines 268–281): skip if the target file exists, is larger
than `MIN_FILE_SIZE` and validates; delete it (counting
`corruptos_reparados` if it was corrupt) otherwise; then check the
server and download. -/
def mainIteration (env : IterEnv) (s : Stats) :
    Stats × IterEffects × Option DiskFile :=
  match env.archivo with
  | some f =>
    if f.size > MIN_FILE_SIZE then
      if validate_netcdf_file f.nc then
        ({s with existentes := s.existentes + 1}, ⟨false, false, false⟩, some f)
      else
        pasoDescarga env {s with corruptos_reparados := s.corruptos_reparados + 1} true
    else
      pasoDescarga env s true
  | none => pasoDescarga env s false

/-- C2: resumability.  If the target file exists, is strictly larger
than `MIN_FILE_SIZE` bytes, and passes NetCDF validation (readable,
with a non-empty `'prec'` variable), the iteration makes no server
contact, deletes and writes nothing (the file stays as it was), and
increments exactly the `existentes` counter. -/
theorem c2_reanudable (env : IterEnv) (s : Stats) (f : DiskFile)
    (hf : env.archivo = some f)
    (hsize : f.size > MIN_FILE_SIZE)
    (hleible : f.nc.readable = true)
    (hprec : f.nc.hasPrec = true)
    (hnovacia : f.nc.precSize ≠ 0) :
    mainIteration env s =
      ({s with existentes := s.existentes + 1}, ⟨false, false, false⟩, some f) := by
  have hval : validate_netcdf_file f.nc = true := by
    simp [validate_netcdf_file, hleible, hprec, hnovacia]
  simp [mainIteration, hf, hsize, hval]

/-- Witness for C2: a 2 KB valid file is skipped and counted as
existing, whatever the server would have answered. -/
theorem c2_reanudable_witness :
    mainIteration ⟨some ⟨2000, true, true, 24⟩, some false, ⟨true, true, true, ⟨1, true, true, 1⟩⟩⟩
        ⟨0, 0, 0, 0, 0⟩ =
      (⟨1, 0, 0, 0, 0⟩, ⟨false, false, false⟩, some ⟨2000, true, true, 24⟩) := by
  exact c2_reanudable _ _ ⟨2000, true, true, 24⟩ rfl (by norm_num [MIN_FILE_SIZE]) rfl rfl
    (by norm_num)

/-- C10: each completed iteration increments exactly one of
`existentes`, `descargados`, `no_disponibles`, `errores`; the counter
`corruptos_reparados` changes by at most one, and when it does, one of
`descargados`, `no_disponibles`, `errores` is incremented as well
(never `corruptos_reparados` alone). -/
theorem c10_contadores (env : IterEnv) (s : Stats) :
    ((mainIteration env s).1.existentes - s.existentes) +
      ((mainIteration env s).1.descargados - s.descargados) +
      ((mainIteration env s).1.no_disponibles - s.no_disponibles) +
      ((mainIteration env s).1.errores - s.errores) = 1 ∧
    (mainIteration env s).1.corruptos_reparados - s.corruptos_reparados ≤ 1 ∧
    ((mainIteration env s).1.corruptos_reparados - s.corruptos_reparados = 1 →
      ((mainIteration env s).1.descargados - s.descargados) +
        ((mainIteration env s).1.no_disponibles - s.no_disponibles) +
        ((mainIteration env s).1.errores - s.errores) = 1) := by
  have hpaso : ∀ (s' : Stats) (borro : Bool),
      (pasoDescarga env s' borro).1 = {s' with no_disponibles := s'.no_disponibles + 1} ∨
      (pasoDescarga env s' borro).1 = {s' with errores := s'.errores + 1} ∨
      (pasoDescarga env s' borro).1 = {s' with descargados := s'.descargados + 1} := by
    intro s' borro
    unfold pasoDescarga
    rcases env.remoto with _ | b
    · right; left; rfl
    · cases b
      · left; rfl
      · rcases hres : (exponential_backoff_retry
            (fun _ => .ok (download_precipitation_data env.descarga none))
            MAX_RETRIES RETRY_BASE_DELAY).result with v | e | e
        · rcases v with ⟨b', despues⟩
          cases b' <;> simp [hres]
        · simp [hres]
        · simp [hres]
        · simp [hres]
  unfold mainIteration
  rcases env.archivo with _ | f
  · rcases hpaso s false with h | h | h <;> simp [h]
  · by_cases hsz : f.size > MIN_FILE_SIZE
    · by_cases hval : validate_netcdf_file f.nc
      · simp [hsz, hval]
      · rcases hpaso {s with corruptos_reparados := s.corruptos_reparados + 1} true
          with h | h | h <;> simp [hsz, hval, h]
    · rcases hpaso s true with h | h | h <;> simp [hsz, h]

/-- Witness for C10 at a concrete input: a corrupt pre-existing file
(readable but without `'prec'`) on a 404 date increments
`corruptos_reparados` together with `no_disponibles`. -/
theorem c10_contadores_witness :
    ((mainIteration ⟨some ⟨2000, true, false, 0⟩, some false,
          ⟨true, true, true, ⟨1, true, true, 1⟩⟩⟩ ⟨0, 0, 0, 0, 0⟩).1.descargados - 0) +
      ((mainIteration ⟨some ⟨2000, true, false, 0⟩, some false,
          ⟨true, true, true, ⟨1, true, true, 1⟩⟩⟩ ⟨0, 0, 0, 0, 0⟩).1.no_disponibles - 0) +
      ((mainIteration ⟨some ⟨2000, true, false, 0⟩, some false,
          ⟨true, true, true, ⟨1, true, true, 1⟩⟩⟩ ⟨0, 0, 0, 0, 0⟩).1.errores - 0) = 1 := by
  exact (c10_contadores ⟨some ⟨2000, true, false, 0⟩, some false,
    ⟨true, true, true, ⟨1, true, true, 1⟩⟩⟩ ⟨0, 0, 0, 0, 0⟩).2.2 (by rfl)

end DownloadBulk

/-! ## Shared DataFrame model

Both pandas scripts work on DataFrames whose cells are floats, strings,
datetimes or missing (`NaN`/`NaT`/`pd.NA`). -/

/-- A pandas cell.  Floats are modelled as `ℚ`; datetimes as a `Nat`
encoding (y, month, day, hour, minute in base 100, so chronological
order is numeric order). -/
inductive Cell where
  | num (q : ℚ)
  | str (s : String)
  | fecha (t : Nat)
  | na
deriving DecidableEq, Repr

/-- A DataFrame: column labels plus rows of cells. -/
structure Df where
  cols : List String
  filas : List (List Cell)
deriving DecidableEq, Repr

/-- ASCII digit test. -/
def charDigito (c : Char) : Bool := '0' ≤ c && c ≤ '9'

/-- Numeric value of a digit string. -/
def valorDigitos (ds : List Char) : Nat :=
  ds.foldl (fun n c => 10 * n + (c.toNat - 48)) 0

/-- Take at most `maxi` leading digits (a `strptime` `%Y`/`%m`/… field). -/
def tomarDigitos (maxi : Nat) (cs : List Char) : List Char × List Char :=
  let digs := (cs.takeWhile charDigito).take maxi
  (digs, cs.drop digs.length)

/-- Exponent suffix of a Python float literal (`e5`, `E-3`, …),
applied to `base`. -/
def parsearExp (base : ℚ) (cs : List Char) : Option ℚ :=
  let conSigno : List Char → Option ℚ := fun resto =>
    let aplicar : Bool → List Char → Option ℚ := fun neg ds =>
      let (digs, resto2) := ds.span charDigito
      if digs.isEmpty ∨ ¬ resto2.isEmpty then none
      else some (if neg then base / 10 ^ valorDigitos digs else base * 10 ^ valorDigitos digs)
    match resto with
    | '-' :: r => aplicar true r
    | '+' :: r => aplicar false r
    | r => aplicar false r
  match cs with
  | [] => some base
  | 'e' :: resto => conSigno resto
  | 'E' :: resto => conSigno resto
  | _ => none

/-- Unsigned part of a Python float literal: digits, optional fraction,
optional exponent. -/
def parsearSinSigno (cs : List Char) : Option ℚ :=
  let (ent, resto) := cs.span charDigito
  match resto with
  | '.' :: resto2 =>
    let (frac, resto3) := resto2.span charDigito
    if ent.isEmpty && frac.isEmpty then none
    else parsearExp ((valorDigitos ent : ℚ) + (valorDigitos frac : ℚ) / 10 ^ frac.length) resto3
  | _ =>
    if ent.isEmpty then none else parsearExp (valorDigitos ent : ℚ) resto

/-- `float(s)` / `pd.to_numeric(s)`: optional surrounding whitespace
and sign, then an unsigned float literal.  (`inf`/`nan` literals are
not representable in `ℚ` and parse to `none`, i.e. to missing; no claim
observes them.) -/
def parsearNumero (s : String) : Option ℚ :=
  match (recortar s).data with
  | '-' :: resto => (parsearSinSigno resto).map (fun q => -q)
  | '+' :: resto => parsearSinSigno resto
  | cs => parsearSinSigno cs

/-- `pd.to_numeric(col, errors='coerce')` on one cell: numbers stay,
missing stays missing, strings parse or become `NaN`.  (A datetime cell
never reaches the call sites; `coerce` would also turn it into
a number-of-nanoseconds, which no claim observes.) -/
def aNumerico (c : Cell) : Cell :=
  match c with
  | .num q => .num q
  | .na => .na
  | .str s =>
    match parsearNumero s with
    | some q => .num q
    | none => .na
  | .fecha _ => .na

/-- Python `str.upper()` (ASCII, matching the station codes `A0`–`AC`
it is applied to). -/
def pyUpper (s : String) : String :=
  ⟨s.data.map (fun c => if 'a' ≤ c ∧ c ≤ 'z' then Char.ofNat (c.toNat - 32) else c)⟩

/-- All positions of label `c` in `cols` (pandas column selection keeps
every occurrence of a duplicated label). -/
def posicionesDe (cols : List String) (c : String) : List Nat :=
  (List.range cols.length).filter (fun i => cols.getD i "" == c)

/-- `df[labels]`: for each requested label, all matching columns in
frame order. -/
def Df.seleccionar (df : Df) (labels : List String) : Df :=
  let pos := labels.flatMap (posicionesDe df.cols)
  ⟨pos.map (fun i => df.cols.getD i ""),
   df.filas.map (fun fila => pos.map (fun i => fila.getD i Cell.na))⟩

/-- Apply `f` cell-wise, telling it the column label (used for
`df[col] = f(df[col])`-style column updates). -/
def Df.transformar (df : Df) (f : String → Cell → Cell) : Df :=
  ⟨df.cols,
   df.filas.map (fun fila =>
     (List.range df.cols.length).map (fun i => f (df.cols.getD i "") (fila.getD i Cell.na)))⟩

/-- `df.rename(columns=dict(m))`: relabel columns, keeping data. -/
def Df.renombrar (df : Df) (m : List (String × String)) : Df :=
  ⟨df.cols.map (fun c => ((m.find? (fun p => p.1 == c)).map Prod.snd).getD c), df.filas⟩

/-! ## `src/etl/procesar_ctd.py` -/

namespace Ctd

/-- Strategy 1 of `detectar_inicio_datos` (lines 157–161): the
lower-cased, stripped line contains both `"odigo"` and `"stacion"`. -/
def esLineaCabecera (line : String) : Bool :=
  let l := recortar (pyLower line)
  contiene l "odigo" && contiene l "stacion"

/-- Strategy 2 marker (lines 163–165): the lower-cased, stripped line
contains both `"var_0"` and `"var_1"`. -/
def esLineaVars (line : String) : Bool :=
  let l := recortar (pyLower line)
  contiene l "var_0" && contiene l "var_1"

/-- The `i + 1 < len(lines) and "A0" in lines[i+1]` look-ahead of
strategy 2 (line 168), applied to the lines after the current one. -/
def sigTieneA0 : List String → Bool
  | sig :: _ => contiene sig "A0"
  | [] => false

/-- The first `for i, line in enumerate(lines)` loop (lines 153–169):
per line, strategy 1, then strategy 2 (which additionally requires
`"A0" in lines[i+1]`, on the raw next line). -/
def buscar12 : List String → Nat → Option Nat
  | [], _ => none
  | line :: resto, i =>
    if esLineaCabecera line then some i
    else if esLineaVars line && sigTieneA0 resto then some i
    else buscar12 resto (i + 1)

/-- Strategy 3 test (line 174): the stripped line starts with `"A0"`
or `"A1"`. -/
def empiezaDato (line : String) : Bool :=
  empiezaCon (recortar line) "A0" || empiezaCon (recortar line) "A1"

/-- The second loop (lines 173–176): first data-looking line. -/
def buscar3 : List String → Nat → Option Nat
  | [], _ => none
  | line :: resto, i =>
    if empiezaDato line then some i else buscar3 resto (i + 1)

/-- `detectar_inicio_datos` (lines 144–183) on the lines of the file.
(The file-unreadable arm, which also returns `-1`, is outside the
model: the input here is the read lines.)  `max(0, i - 1)` of strategy
3 is `ℕ` truncated subtraction. -/
def detectar_inicio_datos (lines : List String) : Int :=
  match buscar12 lines 0 with
  | some i => (i : Int)
  | none =>
    match buscar3 lines 0 with
    | some i => ((i - 1 : Nat) : Int)
    | none => -1

/-- Index-based reading of the claim: the first line index `i` at which
strategy 1 matches, or strategy 2 matches with `"A0"` in line `i+1`. -/
def coincideEn (lines : List String) (i : Nat) : Bool :=
  esLineaCabecera (lines.getD i "") ||
  (esLineaVars (lines.getD i "") && decide (i + 1 < lines.length) &&
    contiene (lines.getD (i + 1) "") "A0")

/-- First index matched by strategies 1/2 (claim-side spec). -/
def primeraCoincidencia (lines : List String) : Option Nat :=
  (List.range lines.length).find? (coincideEn lines)

/-- Claim-side spec of C4's first clause alone: the first line that
contains both `"odigo"` and `"stacion"` (case-insensitive). -/
def primeraCabeceraTexto (lines : List String) : Option Nat :=
  (List.range lines.length).find? (fun i => esLineaCabecera (lines.getD i ""))

/-- One raw field of `pd.read_csv(..., sep='\t', decimal=',')`: blank
fields are missing; a comma-decimal number parses (a field with a `'.'`
does not, under `decimal=','`); anything else stays a string.  (pandas
infers dtypes per column; modelling it per cell differs only for
mixed columns, which no claim observes.) -/
def celdaCruda (campo : String) : Cell :=
  if (recortar campo).data.isEmpty then Cell.na
  else if contiene campo "." then Cell.str campo
  else
    match parsearNumero (cambiarComaPorPunto campo) with
    | some q => .num q
    | none => .str campo

/-- The `pd.read_csv(filepath, skiprows=start_line, sep='\t', ...)` of
`procesar_archivo_ctd` (lines 243–255): skip `inicio` lines, first
remaining non-blank line is the header; `on_bad_lines='warn'` drops rows
with more fields than the header; short rows are padded with `NaN`;
no lines at all raises `EmptyDataError` (caught, `None`). -/
def leerTabla (lines : List String) (inicio : Nat) : Option Df :=
  match (lines.drop inicio).filter (fun l => !(recortar l).data.isEmpty) with
  | [] => none
  | cab :: datos =>
    let cols := separarPor '\t' cab
    let campos := (datos.map (fun l => separarPor '\t' l)).filter
      (fun cs => cs.length ≤ cols.length)
    some ⟨cols, campos.map (fun cs =>
      cs.map celdaCruda ++ List.replicate (cols.length - cs.length) Cell.na)⟩

/-- The `rename_map` of `procesar_archivo_ctd` (lines 277–303). -/
def RENOMBRES_CTD : List (String × String) :=
  [("Código", "estacion_id"), ("Estacion", "estacion_nombre"), ("Data", "fecha_hora"),
   ("VAR_0", "temperatura"), ("VAR_1", "salinidad"), ("VAR_2", "presion_db"),
   ("VAR_3", "ph"), ("VAR_4", "oxigeno_ml_l"), ("VAR_5", "transmitancia"),
   ("VAR_6", "irradiancia"), ("VAR_7", "fluorescencia_uv"), ("VAR_8", "fluorescencia"),
   ("VAR_9", "densidad"), ("VAR_10", "profundidad"), ("VAR_11", "temperatura_its68"),
   ("VAR_12", "conductividad"),
   ("CODVAL_0", "qc_temperatura"), ("CODVAL_1", "qc_salinidad"),
   ("CODVAL_4", "qc_oxigeno"), ("CODVAL_8", "qc_fluorescencia")]

/-- `cols_numericas` of step 4 (line 314). -/
def COLS_NUMERICAS_CTD : List String :=
  ["salinidad", "profundidad", "temperatura", "qc_salinidad", "qc_temperatura"]

/-- The default `coordenadas_default` of `cargar_coordenadas`
(lines 73–85), as loaded when no override file exists. -/
def COORDENADAS_CTD : List (String × ℚ × ℚ) :=
  [("A0", 42.5181, -8.9818), ("A1", 42.5932, -8.9329), ("A2", 42.6074, -8.8893),
   ("A3", 42.6465, -8.8413), ("A4", 42.5681, -8.8894), ("A5", 42.5623, -8.8042),
   ("A6", 42.5991, -8.7765), ("A7", 42.4832, -8.8724), ("A8", 42.4865, -8.9371),
   ("A9", 42.5221, -9.0065), ("AC", 42.5505, -8.9102)]

/-- `df['estacion_id'].astype(str).str.strip().str.upper()` on one cell
(lines 202): the merge key.  Non-string cells never match an `A*`
station code. -/
def claveEstacion (c : Cell) : String :=
  match c with
  | .str s => pyUpper (recortar s)
  | _ => ""

/-- `enriquecer_coordenadas` (lines 185–219): left-merge of lat/lon on
the cleaned station id; without an `estacion_id` column, `lat`/`lon`
are added as all-missing. -/
def enriquecer_coordenadas (df : Df) : Df :=
  if df.cols.contains "estacion_id" then
    let idx := df.cols.findIdx (· == "estacion_id")
    ⟨df.cols ++ ["lat", "lon"],
     df.filas.map (fun fila =>
       match COORDENADAS_CTD.find?
           (fun p => p.1 == claveEstacion (fila.getD idx Cell.na)) with
       | some (_, la, lo) => fila ++ [.num la, .num lo]
       | none => fila ++ [Cell.na, Cell.na])⟩
  else
    ⟨df.cols ++ ["lat", "lon"],
     df.filas.map (fun fila => fila ++ [Cell.na, Cell.na])⟩

/-- `pd.to_datetime(s, dayfirst=True, errors='coerce')` restricted to
the `d/m/yyyy H:M[:S]` shapes the INTECMAR CTD exports use (the
general pandas date parser accepts more shapes; no claim observes
them).  Encoding: base-100 digits `y, m, d, H, M`. -/
def parsearFechaDMA (s : String) : Option Nat :=
  let cs := (recortar s).data
  let (d, r1) := tomarDigitos 2 cs
  match r1 with
  | '/' :: r2 =>
    let (mo, r3) := tomarDigitos 2 r2
    match r3 with
    | '/' :: r4 =>
      let (y, r5) := tomarDigitos 4 r4
      let horaDe : List Char → Option (Nat × Nat) := fun r =>
        let (h, r6) := tomarDigitos 2 r
        match r6 with
        | ':' :: r7 =>
          let (mi, r8) := tomarDigitos 2 r7
          match r8 with
          | [] => if h.isEmpty ∨ mi.isEmpty then none else some (valorDigitos h, valorDigitos mi)
          | ':' :: r9 =>
            let (sg, r10) := tomarDigitos 2 r9
            if h.isEmpty ∨ mi.isEmpty ∨ sg.isEmpty ∨ ¬ r10.isEmpty then none
            else some (valorDigitos h, valorDigitos mi)
          | _ => none
        | _ => none
      let hm : Option (Nat × Nat) :=
        match r5 with
        | [] => some (0, 0)
        | ' ' :: r6 => horaDe r6
        | _ => none
      match hm with
      | some (h, mi) =>
        if d.isEmpty ∨ mo.isEmpty ∨ y.length ≠ 4 then none
        else
          let dv := valorDigitos d
          let mv := valorDigitos mo
          if 1 ≤ dv ∧ dv ≤ 31 ∧ 1 ≤ mv ∧ mv ≤ 12 ∧ h ≤ 23 ∧ mi ≤ 59 then
            some (((((valorDigitos y) * 100 + mv) * 100 + dv) * 100 + h) * 100 + mi)
          else none
      | none => none
    | _ => none
  | _ => none

/-- `pd.to_datetime(col, dayfirst=True, errors='coerce')` on one cell. -/
def aFechaFlexible (c : Cell) : Cell :=
  match c with
  | .str s =>
    match parsearFechaDMA s with
    | some t => .fecha t
    | none => .na
  | .fecha t => .fecha t
  | _ => .na

/-- `df['estacion_id'].astype(str).str.strip()` on one cell (line 342).
(`astype(str)`'s rendering of non-string cells is not observed by any
claim.) -/
def recortarId (c : Cell) : Cell :=
  match c with
  | .str s => .str (recortar s)
  | c => c

/-- `cols_clave` of the final reordering (line 346). -/
def COLS_CLAVE : List String :=
  ["estacion_id", "estacion_nombre", "lat", "lon", "fecha_hora",
   "profundidad", "salinidad", "qc_salinidad", "temperatura", "qc_temperatura"]

/-- `cols_meta` (line 352). -/
def COLS_META : List String := ["origen_archivo", "fecha_procesamiento"]

/-- Steps 2–8 of `procesar_archivo_ctd` (lines 242–367), after the
header index `inicio` was accepted.  `ahora` is `pd.Timestamp.now()`.
A duplicated label among the single-column operations' targets, or a
pre-existing `lat`/`lon` column colliding with the merge, makes pandas
raise (`TypeError`/`AttributeError`/`KeyError`); `procesar_archivo_ctd`
catches every exception and returns `None`. -/
def procesarCuerpoCtd (filename : String) (ahora : Nat) (lines : List String)
    (inicio : Nat) : Option Df :=
  match leerTabla lines inicio with
  | none => none
  | some df0 =>
    if df0.filas.isEmpty then none
    else
      let df1 : Df := ⟨df0.cols.map recortar, df0.filas⟩
      let df2 := df1.renombrar RENOMBRES_CTD
      if (COLS_NUMERICAS_CTD ++ ["estacion_id", "fecha_hora"]).any
          (fun c => 2 ≤ df2.cols.count c) then none
      else if df2.cols.contains "estacion_id" &&
          (df2.cols.contains "lat" || df2.cols.contains "lon") then none
      else
        let df3 := df2.transformar (fun c celda =>
          if COLS_NUMERICAS_CTD.contains c then aNumerico celda else celda)
        let df4 := enriquecer_coordenadas df3
        let df5 := df4.transformar (fun c celda =>
          if c == "fecha_hora" then aFechaFlexible celda else celda)
        let df6 : Df := ⟨df5.cols ++ COLS_META,
          df5.filas.map (fun fila => fila ++ [Cell.str filename, Cell.fecha ahora])⟩
        let df7 := df6.transformar (fun c celda =>
          if c == "estacion_id" then recortarId celda else celda)
        let extra := df7.cols.filter (fun c =>
          !COLS_CLAVE.contains c && (RENOMBRES_CTD.map Prod.snd).contains c)
        let finales := COLS_CLAVE.filter (fun c => df7.cols.contains c) ++
          extra.filter (fun c => df7.cols.contains c) ++ COLS_META
        some (df7.seleccionar finales)

/-- `procesar_archivo_ctd` (lines 221–367): detect the header line;
`start_line <= 0` skips the file (`None`); otherwise read and process
from there. -/
def procesar_archivo_ctd (filename : String) (ahora : Nat)
    (lines : List String) : Option Df :=
  let start_line := detectar_inicio_datos lines
  if start_line ≤ 0 then none
  else procesarCuerpoCtd filename ahora lines start_line.toNat

/-- Shifting the index-based strategy-1/2 test past the head of the
line list. -/
lemma coincideEn_cons (x : String) (resto : List String) (j : Nat) :
    coincideEn (x :: resto) (j + 1) = coincideEn resto j := by
  simp only [coincideEn, List.getD_cons_succ, List.length_cons, Nat.add_lt_add_iff_right]

/-- The first loop of `detectar_inicio_datos` finds exactly the first
index where strategy 1 or strategy 2 matches. -/
lemma buscar12_eq : ∀ (lines : List String) (i0 : Nat),
    buscar12 lines i0 = (primeraCoincidencia lines).map (· + i0) := by
  intro lines
  induction lines with
  | nil => intro i0; rfl
  | cons x resto ih =>
    intro i0
    have hc0 : coincideEn (x :: resto) 0 =
        (esLineaCabecera x || (esLineaVars x && sigTieneA0 resto)) := by
      cases resto <;> simp [coincideEn, sigTieneA0]
    have hrest : primeraCoincidencia (x :: resto) =
        if coincideEn (x :: resto) 0 then some 0
        else (primeraCoincidencia resto).map Nat.succ := by
      rw [primeraCoincidencia, List.length_cons, List.range_succ_eq_map]
      by_cases h0 : coincideEn (x :: resto) 0
      · rw [List.find?_cons_of_pos _ h0, if_pos h0]
      · rw [List.find?_cons_of_neg _ h0, if_neg h0, List.find?_map, primeraCoincidencia]
        have hcomp : (coincideEn (x :: resto) ∘ Nat.succ) = coincideEn resto :=
          funext fun j => coincideEn_cons x resto j
        rw [hcomp]
    rw [hrest]
    simp only [buscar12]
    by_cases h1 : esLineaCabecera x
    · have hcv : coincideEn (x :: resto) 0 = true := by
        rw [hc0, h1, Bool.true_or]
      rw [if_pos h1, if_pos hcv]
      simp
    · rw [if_neg h1]
      by_cases h2 : (esLineaVars x && sigTieneA0 resto) = true
      · have hcv : coincideEn (x :: resto) 0 = true := by
          rw [hc0, h2, Bool.or_true]
        rw [if_pos h2, if_pos hcv]
        simp
      · have hff : ¬ coincideEn (x :: resto) 0 = true := by
          rw [hc0]
          simp only [Bool.or_eq_true, not_or]
          exact ⟨by simpa using h1, by simpa using h2⟩
        rw [if_neg h2, if_neg hff]
        rw [ih (i0 + 1)]
        cases primeraCoincidencia resto with
        | none => rfl
        | some j => simp [Nat.succ_eq_add_one]; omega

/-- If no line looks like a data row, the strategy-3 loop finds
nothing. -/
lemma buscar3_none : ∀ (lines : List String) (i0 : Nat),
    (∀ line ∈ lines, empiezaDato line = false) → buscar3 lines i0 = none := by
  intro lines
  induction lines with
  | nil => intro i0 _; rfl
  | cons x resto ih =>
    intro i0 h
    rw [buscar3, h x (List.mem_cons_self x resto)]
    simp only [Bool.false_eq_true, if_false]
    exact ih (i0 + 1) (fun l hl => h l (List.mem_cons_of_mem x hl))

/-- C4 (amended): `detectar_inicio_datos` returns the index of the
first line that matches *either* the `odigo`/`stacion` pattern or the
`var_0`/`var_1` pattern with `"A0"` in the following line (the two are
tried per line, in file order — not `odigo`/`stacion` first); and when
no line matches either pattern and no line starts with `"A0"`/`"A1"`,
it returns `-1` and `procesar_archivo_ctd` skips the file, returning
`None`. -/
theorem c4_deteccion_cabecera (lines : List String) :
    (∀ i, primeraCoincidencia lines = some i →
      detectar_inicio_datos lines = (i : Int)) ∧
    (primeraCoincidencia lines = none →
      (∀ line ∈ lines, empiezaDato line = false) →
      detectar_inicio_datos lines = -1 ∧
        ∀ filename ahora, procesar_archivo_ctd filename ahora lines = none) := by
  have h12 := buscar12_eq lines 0
  constructor
  · intro i hi
    rw [hi] at h12
    rw [detectar_inicio_datos, h12]
    simp
  · intro hnone hdato
    rw [hnone] at h12
    have hm1 : detectar_inicio_datos lines = -1 := by
      rw [detectar_inicio_datos, h12, buscar3_none lines 0 hdato]
      rfl
    refine ⟨hm1, fun filename ahora => ?_⟩
    rw [procesar_archivo_ctd, hm1]
    rfl

/-- Counterexample to C4 as stated: in this file the first line
containing both `"odigo"` and `"stacion"` is line 2, but
`detectar_inicio_datos` returns 0, because line 0 already matches the
`var_0`/`var_1` pattern (with `"A0"` in line 1). -/
theorem c4_deteccion_cabecera_contraejemplo :
    primeraCabeceraTexto ["var_0 var_1", "A0", "codigo estacion"] = some 2 ∧
    detectar_inicio_datos ["var_0 var_1", "A0", "codigo estacion"] = 0 := by
  exact ⟨rfl, rfl⟩

/-- Witness for C4 (amended) at concrete inputs: a plain-text header on
line 0 is found there; a file with no recognisable line gives `-1` and
is skipped. -/
theorem c4_deteccion_cabecera_witness :
    detectar_inicio_datos ["Codigo Estacion datos"] = 0 ∧
    detectar_inicio_datos ["sin nada"] = -1 ∧
    procesar_archivo_ctd "f.txt" 20240101 ["sin nada"] = none := by
  refine ⟨(c4_deteccion_cabecera ["Codigo Estacion datos"]).1 0 rfl, ?_⟩
  have h := (c4_deteccion_cabecera ["sin nada"]).2 rfl (by decide)
  exact ⟨h.1, h.2 "f.txt" 20240101⟩

/-- C8: `procesar_archivo_ctd` rejects any file whose detected header
index is `≤ 0`; in particular a file whose header is exactly the first
line (detector result 0) is skipped, returning `None`. -/
theorem c8_rechaza_cabecera_inicial (filename : String) (ahora : Nat)
    (lines : List String) (h : detectar_inicio_datos lines ≤ 0) :
    procesar_archivo_ctd filename ahora lines = none := by
  rw [procesar_archivo_ctd]
  simp [h]

/-- Witness for C8: a file whose header line ("Codigo … Estacion …") is
line 0 — the detector returns 0, a found header, yet the file is
skipped. -/
theorem c8_rechaza_cabecera_inicial_witness :
    detectar_inicio_datos ["Codigo\tEstacion\tData", "A0\t1\t2"] = 0 ∧
    procesar_archivo_ctd "c1.txt" 20240101 ["Codigo\tEstacion\tData", "A0\t1\t2"] = none := by
  exact ⟨rfl, c8_rechaza_cabecera_inicial "c1.txt" 20240101 _ (by decide)⟩

end Ctd

/-! ## `src/data/01_unificar_intecmar.py` -/

namespace Intecmar

/-- The `COORDENADAS` dict (lines 27–30), in insertion order (its key
order drives station detection).  The float coordinates are written as
rationals in lowest terms (`42.551633 = 42551633/1000000`,
`-8.946442 = -4473221/500000`, `42.627583 = 42627583/1000000`,
`-8.782314 = -4391157/500000`) so that cells holding them are
kernel-computable. -/
def COORDENADAS : List (String × ℚ × ℚ) :=
  [("ribeira", Rat.mk' 42551633 1000000, Rat.mk' (-4473221) 500000),
   ("cortegada", Rat.mk' 42627583 1000000, Rat.mk' (-4391157) 500000)]

/-- `COLUMNAS_ESPERADAS` (lines 39–45). -/
def COLUMNAS_ESPERADAS : List String :=
  ["fecha_hora",
   "salinidad_1_5m", "qc_salinidad_1_5m",
   "temperatura_1_5m", "qc_temperatura_1_5m",
   "salinidad_3m", "qc_salinidad_3m",
   "temperatura_3m", "qc_temperatura_3m"]

/-- `RANGOS_VALIDOS` (lines 48–53), in insertion order. -/
def RANGOS_VALIDOS : List (String × ℚ × ℚ) :=
  [("temperatura_1_5m", -5, 35), ("temperatura_3m", -5, 35),
   ("salinidad_1_5m", 0, 40), ("salinidad_3m", 0, 40)]

/-- One attempted match of the regex `(\d+)[.,]?(\d*)\s*m` at the head
of `cs`: greedy digits, optional separator, digits, whitespace, `'m'`.
(When the separator branch fails, the backtracked branch necessarily
fails too — the next char is `.`/`,`, not `m` — so no backtracking is
needed.)  Returns the two digit groups. -/
def coincideProfundidadEn (cs : List Char) : Option (List Char × List Char) :=
  let (ent, r1) := cs.span charDigito
  if ent.isEmpty then none
  else
    let cola : List Char → Option (List Char × List Char) := fun r =>
      let (dec, r2) := r.span charDigito
      match r2.dropWhile esEspacio with
      | 'm' :: _ => some (ent, dec)
      | _ => none
    match r1 with
    | '.' :: r => cola r
    | ',' :: r => cola r
    | _ => cola r1

/-- `re.search`: leftmost match of the depth pattern. -/
def buscarProfundidad : List Char → Option (List Char × List Char)
  | [] => none
  | c :: resto =>
    match coincideProfundidadEn (c :: resto) with
    | some g => some g
    | none => buscarProfundidad resto

/-- `extraer_profundidad` (lines 56–81): semantic keywords first
(`superficial` → `1_5m`, `inferior`/`fondo` → `3m`), then the numeric
regex fallback with Python's group formatting. -/
def extraer_profundidad (col_name : String) : Option String :=
  let c_lower := pyLower col_name
  if contiene c_lower "superficial" then some "1_5m"
  else if contiene c_lower "inferior" || contiene c_lower "fondo" then some "3m"
  else
    match buscarProfundidad c_lower.data with
    | some (ent, dec) =>
      let entero : String := ⟨ent⟩
      let decimal : String := if dec.isEmpty then "0" else ⟨dec⟩
      some (if decimal ≠ "0" then entero ++ "_" ++ decimal ++ "m" else entero ++ "m")
    | none => none

/-- The `for i, col in enumerate(cols_originales)` loop of
`normalizar_columnas` (lines 93–121), building the `new_cols` rename
dict.  `prev` is `cols_originales[i-1]`; a QC column is renamed
`qc_<base>` only if the previous column was itself renamed.  (`new_cols`
is keyed by original labels; the association-list lookup agrees with the
dict for the duplicate-free headers `read_csv` produces.) -/
def renLoop : List String → Option String → List (String × String) → List (String × String)
  | [], _, acc => acc
  | col :: resto, prev, acc =>
    let cl := pyLower col
    if contiene cl "data" || contiene cl "fecha" then
      renLoop resto (some col) (acc ++ [(col, "fecha_hora")])
    else if contiene cl "validacion" || contiene cl "validación" then
      let acc2 :=
        match prev with
        | some p =>
          match (acc.find? (fun q => q.1 == p)).map Prod.snd with
          | some base => acc ++ [(col, "qc_" ++ base)]
          | none => acc
        | none => acc
      renLoop resto (some col) acc2
    else
      match extraer_profundidad col with
      | some prof =>
        if contiene cl "salinidade" || contiene cl "salinidad" then
          renLoop resto (some col) (acc ++ [(col, "salinidad_" ++ prof)])
        else if contiene cl "temperatura" then
          renLoop resto (some col) (acc ++ [(col, "temperatura_" ++ prof)])
        else renLoop resto (some col) acc
      | none => renLoop resto (some col) acc

/-- `normalizar_columnas` (lines 84–125). -/
def normalizar_columnas (df : Df) : Df :=
  df.renombrar (renLoop df.cols none [])

/-- The `for col in COLUMNAS_ESPERADAS: if col not in df.columns:
df[col] = pd.NA` loop (lines 176–179): append each missing expected
column, all-missing. -/
def asegurarColumnas (df : Df) : Df :=
  COLUMNAS_ESPERADAS.foldl
    (fun d c =>
      if d.cols.contains c then d
      else ⟨d.cols ++ [c], d.filas.map (fun fila => fila ++ [Cell.na])⟩)
    df

/-- `df[labels]` followed by the script's per-column operations:
a missing label raises `KeyError`; a duplicated selected label makes
the later single-column updates (`pd.to_numeric`, `.str`,
`pd.to_datetime` on a two-column frame) raise.  `procesar_archivo`
catches every exception and returns `None`, so both cases are `none`
here. -/
def seleccionarUnico (df : Df) (labels : List String) : Option Df :=
  if labels.all (fun c => df.cols.contains c) then
    if ((labels.flatMap (posicionesDe df.cols)).map (fun i => df.cols.getD i "")).Nodup then
      some (df.seleccionar labels)
    else none
  else none

/-- The `cols_numericas` membership test of line 187: column labels
containing `'salinidad'` or `'temperatura'` (this selects the data *and*
the `qc_*` columns). -/
def colNumerica (c : String) : Bool :=
  contiene c "salinidad" || contiene c "temperatura"

/-- A cell that pandas would store in a float column: a number or
missing. -/
def celdaNumONa (c : Cell) : Bool :=
  match c with
  | .num _ => true
  | .na => true
  | _ => false

/-- A valid (non-`NaT`) datetime cell. -/
def esCeldaFecha (c : Cell) : Bool :=
  match c with
  | .fecha _ => true
  | _ => false

/-- One cell through the numeric coercion of lines 187–194: for string
cells, `.str.replace(',', '.')` then `pd.to_numeric(errors='coerce')`.
(The `astype(str)` path is taken when the column dtype is object;
applying the comma replacement to string cells only is extensionally
the same, since non-string cells round-trip through their repr.) -/
def aNumericoConComa (c : Cell) : Cell :=
  match c with
  | .str s => aNumerico (.str (cambiarComaPorPunto s))
  | c => aNumerico c

/-- Days per month, as `strptime`'s `%d` validation uses. -/
def diasEnMes (y m : Nat) : Nat :=
  if m = 2 then
    if y % 4 = 0 ∧ (y % 100 ≠ 0 ∨ y % 400 = 0) then 29 else 28
  else if m = 4 ∨ m = 6 ∨ m = 9 ∨ m = 11 then 30
  else 31

/-- `pd.to_datetime(s, format='%Y/%m/%d %H:%M', errors='coerce')` on a
string: strict `strptime` match of the whole string (`%Y` ≤ 4 digits,
the other fields 1–2 digits, a literal space matching one-or-more
whitespace), with calendar validation.  Encoding: base-100 digits
`y, m, d, H, M`. -/
def parsearFechaYmdHM (s : String) : Option Nat :=
  let (y, r1) := tomarDigitos 4 s.data
  match r1 with
  | '/' :: r2 =>
    let (mo, r3) := tomarDigitos 2 r2
    match r3 with
    | '/' :: r4 =>
      let (d, r5) := tomarDigitos 2 r4
      let r6 := r5.dropWhile esEspacio
      if r5.length = r6.length then none
      else
        let (h, r7) := tomarDigitos 2 r6
        match r7 with
        | ':' :: r8 =>
          let (mi, r9) := tomarDigitos 2 r8
          if y.isEmpty || mo.isEmpty || d.isEmpty || h.isEmpty || mi.isEmpty ||
              !r9.isEmpty then none
          else
            let yv := valorDigitos y
            let mv := valorDigitos mo
            let dv := valorDigitos d
            let hv := valorDigitos h
            let miv := valorDigitos mi
            if 1 ≤ mv ∧ mv ≤ 12 ∧ 1 ≤ dv ∧ dv ≤ diasEnMes yv mv ∧ hv ≤ 23 ∧ miv ≤ 59 then
              some ((((yv * 100 + mv) * 100 + dv) * 100 + hv) * 100 + miv)
            else none
        | _ => none
    | _ => none
  | _ => none

/-- `pd.to_datetime(col, format=..., errors='coerce')` on one cell:
non-matching cells (including numbers) coerce to `NaT`. -/
def aFechaFormato (c : Cell) : Cell :=
  match c with
  | .str s =>
    match parsearFechaYmdHM s with
    | some t => .fecha t
    | none => .na
  | .fecha t => .fecha t
  | _ => .na

/-- The numeric-coercion loop of lines 187–194 over the whole frame:
every column whose label contains `salinidad`/`temperatura` goes
through comma replacement and `pd.to_numeric(errors='coerce')`. -/
def coercionNumerica (df : Df) : Df :=
  df.transformar (fun c celda => if colNumerica c then aNumericoConComa celda else celda)

/-- The `pd.to_datetime` of lines 199–203 applied to the `fecha_hora`
column. -/
def coercionFecha (df : Df) : Df :=
  df.transformar (fun c celda => if c == "fecha_hora" then aFechaFormato celda else celda)

/-- `df.dropna(subset=['fecha_hora'])` (line 206): keep rows whose
`fecha_hora` is not missing. -/
def quedarseFechasValidas (df : Df) : Df :=
  let idx := df.cols.findIdx (fun c => c == "fecha_hora")
  ⟨df.cols, df.filas.filter (fun fila =>
    match fila.getD idx Cell.na with
    | .na => false
    | _ => true)⟩

/-- `(df[col] < min_val) | (df[col] > max_val)` on one cell: missing
compares `False`; comparing a string or datetime cell against a number
raises `TypeError` (`none`). -/
def celdaFueraRango (c : Cell) (lo hi : ℚ) : Option Bool :=
  match c with
  | .num q => some (decide (q < lo) || decide (hi < q))
  | .na => some false
  | .str _ => none
  | .fecha _ => none

/-- `mask.sum()` with error propagation. -/
def contarFuera (celdas : List Cell) (lo hi : ℚ) : Except Unit Nat :=
  match celdas with
  | [] => .ok 0
  | c :: resto =>
    match celdaFueraRango c lo hi with
    | none => .error ()
    | some b =>
      match contarFuera resto lo hi with
      | .error e => .error e
      | .ok n => .ok (n + if b then 1 else 0)

/-- The cells of column `c` (first occurrence). -/
def columnaCeldas (df : Df) (c : String) : List Cell :=
  let idx := df.cols.findIdx (fun c2 => c2 == c)
  df.filas.map (fun fila => fila.getD idx Cell.na)

/-- The `for col, (min_val, max_val) in RANGOS_VALIDOS.items()` loop of
`validar_rangos` (lines 128–141): count out-of-range values per present
column and log a warning; the data is returned untouched (the
`df.loc[mask, col] = np.nan` line is commented out).  A duplicated
label makes `if n_invalidos > 0` raise on an ambiguous Series
(`.error`), as does comparing non-numeric cells. -/
def validarLoop (df : Df) (station : String) :
    List (String × ℚ × ℚ) → List (String × Nat) → Except Unit (Df × List (String × Nat))
  | [], acc => .ok (df, acc)
  | (col, lo, hi) :: resto, acc =>
    if 2 ≤ df.cols.count col then .error ()
    else if df.cols.contains col then
      match contarFuera (columnaCeldas df col) lo hi with
      | .error _ => .error ()
      | .ok n =>
        validarLoop df station resto
          (if 0 < n then acc ++ [(station ++ " - " ++ col, n)] else acc)
    else validarLoop df station resto acc

/-- `validar_rangos(df, station_name)`: the returned frame plus the
warnings it logged. -/
def validar_rangos (df : Df) (station : String) :
    Except Unit (Df × List (String × Nat)) :=
  validarLoop df station RANGOS_VALIDOS []

/-- Station detection of `procesar_archivo` (lines 147–154): the first
`COORDENADAS` key contained in the lower-cased basename. -/
def detectarEstacion (filename : String) : Option String :=
  (COORDENADAS.map Prod.fst).find? (fun e => contiene (pyLower filename) e)

/-- Lines 211–214: `df['estacion']`, `df['lat']`, `df['lon']`. -/
def agregarMetadatos (df : Df) (st : String) (la lo : ℚ) : Df :=
  ⟨df.cols ++ ["estacion", "lat", "lon"],
   df.filas.map (fun fila => fila ++ [Cell.str st, .num la, .num lo])⟩

/-- `cols_ordenadas` (lines 217–218). -/
def cols_ordenadas : List String :=
  ["estacion", "lat", "lon", "fecha_hora"] ++
    COLUMNAS_ESPERADAS.filter (fun c => c ≠ "fecha_hora")

/-- `procesar_archivo` (lines 144–226) on the parsed CSV `raw` (the
`pd.read_csv` of lines 161–167 already applied): detect the station
from the file name, strip and normalise column labels, complete and
select the expected columns, coerce numerics and dates, drop rows with
invalid dates, validate ranges, add station metadata, reorder.  Any
pandas exception on the way is caught (lines 224–226) and yields
`None`. -/
def procesar_archivo (filename : String) (raw : Df) : Option Df :=
  match detectarEstacion filename with
  | none => none
  | some st =>
    let df0 : Df := ⟨raw.cols.map recortar, raw.filas⟩
    let df1 := normalizar_columnas df0
    let df2 := asegurarColumnas df1
    match seleccionarUnico df2 COLUMNAS_ESPERADAS with
    | none => none
    | some df3 =>
      let df4 := coercionNumerica df3
      let df5 := coercionFecha df4
      let df6 := quedarseFechasValidas df5
      match validar_rangos df6 st with
      | .error _ => none
      | .ok (df7, _) =>
        match (COORDENADAS.find? (fun p => p.1 == st)).map Prod.snd with
        | none => none
        | some (la, lo) =>
          seleccionarUnico (agregarMetadatos df7 st la lo) cols_ordenadas

/-- A nonempty, duplicate-free, constant list is a singleton. -/
lemma lista_constante_singleton {α : Type} (l : List α) (c : α)
    (hne : l ≠ []) (hall : ∀ x ∈ l, x = c) (hnd : l.Nodup) : l = [c] := by
  match l with
  | [] => exact absurd rfl hne
  | [x] => rw [hall x (by simp)]
  | x :: y :: resto =>
    exfalso
    have hx := hall x (by simp)
    have hy := hall y (by simp)
    rw [List.nodup_cons] at hnd
    exact hnd.1 (by rw [hx, hy]; simp)

/-- Every recorded position of a label carries that label. -/
lemma posicionesDe_mem (cols : List String) (c : String) :
    ∀ i ∈ posicionesDe cols c, cols.getD i "" = c := by
  intro i hi
  simp only [posicionesDe, List.mem_filter] at hi
  simpa using hi.2

/-- A present label has at least one recorded position. -/
lemma posicionesDe_ne_nil (cols : List String) (c : String)
    (h : cols.contains c = true) : posicionesDe cols c ≠ [] := by
  rw [List.contains_iff_exists_mem_beq] at h
  obtain ⟨x, hx, hbeq⟩ := h
  obtain ⟨i, hlt, hget⟩ := List.mem_iff_getElem.mp hx
  have hmem2 : i ∈ posicionesDe cols c := by
    simp only [posicionesDe, List.mem_filter, List.mem_range]
    refine ⟨hlt, ?_⟩
    have hgx : cols.getD i "" = x := by
      rw [List.getD_eq_getElem?_getD, List.getElem?_eq_getElem hlt, hget]
      rfl
    have hxc : c = x := beq_iff_eq.mp hbeq
    rw [hgx, hxc]
    simp
  exact List.ne_nil_of_mem hmem2

/-- When the selected labels are duplicate-free, selection returns
exactly the requested labels, once each. -/
lemma flatMap_posiciones_nodup (cols : List String) :
    ∀ (labels : List String), (∀ c ∈ labels, cols.contains c = true) →
      ((labels.flatMap (posicionesDe cols)).map (fun i => cols.getD i "")).Nodup →
      (labels.flatMap (posicionesDe cols)).map (fun i => cols.getD i "") = labels := by
  intro labels
  induction labels with
  | nil => simp
  | cons c ls ih =>
    intro hmem hnd
    rw [List.flatMap_cons, List.map_append] at hnd ⊢
    have hchunk_all : ∀ x ∈ (posicionesDe cols c).map (fun i => cols.getD i ""), x = c := by
      intro x hx
      obtain ⟨i, hi, rfl⟩ := List.mem_map.mp hx
      exact posicionesDe_mem cols c i hi
    have hchunk_ne : (posicionesDe cols c).map (fun i => cols.getD i "") ≠ [] := by
      simp only [ne_eq, List.map_eq_nil_iff]
      exact posicionesDe_ne_nil cols c (hmem c (by simp))
    have hchunk_nd : ((posicionesDe cols c).map (fun i => cols.getD i "")).Nodup :=
      (List.nodup_append.mp hnd).1
    have hc : (posicionesDe cols c).map (fun i => cols.getD i "") = [c] :=
      lista_constante_singleton _ c hchunk_ne hchunk_all hchunk_nd
    rw [hc] at hnd ⊢
    rw [List.singleton_append] at hnd ⊢
    rw [List.nodup_cons] at hnd
    rw [ih (fun c2 h2 => hmem c2 (by simp [h2])) hnd.2]

/-- Successful guarded selection: the result's columns are exactly the
requested labels, and every result row comes from an input row with a
position-wise label/cell correspondence (out-of-range positions give
the defaults). -/
lemma seleccionarUnico_spec (df : Df) (labels : List String) (df2 : Df)
    (h : seleccionarUnico df labels = some df2) :
    df2.cols = labels ∧
    ∀ fila2 ∈ df2.filas, ∃ fila ∈ df.filas,
      fila2.length = labels.length ∧
      ∀ j, (df2.cols.getD j "" = "" ∧ fila2.getD j Cell.na = Cell.na) ∨
        ∃ i, df2.cols.getD j "" = df.cols.getD i "" ∧
          fila2.getD j Cell.na = fila.getD i Cell.na := by
  unfold seleccionarUnico at h
  split at h
  case isFalse => exact absurd h (by simp)
  case isTrue hall =>
  split at h
  case isFalse => exact absurd h (by simp)
  case isTrue hnd =>
  rw [Option.some.injEq] at h
  have hmem : ∀ c ∈ labels, df.cols.contains c = true := by
    intro c hc
    exact (List.all_eq_true.mp hall) c hc
  have hcols : df2.cols = labels := by
    rw [← h]
    exact flatMap_posiciones_nodup df.cols labels hmem hnd
  refine ⟨hcols, ?_⟩
  intro fila2 hfila2
  rw [← h] at hfila2
  simp only [Df.seleccionar, List.mem_map] at hfila2
  obtain ⟨fila, hfila, hmapa⟩ := hfila2
  refine ⟨fila, hfila, ?_, ?_⟩
  · have h1 : fila2.length = (labels.flatMap (posicionesDe df.cols)).length := by
      rw [← hmapa, List.length_map]
    have h2 : labels.length = (labels.flatMap (posicionesDe df.cols)).length := by
      conv_lhs => rw [← hcols, ← h]
      simp [Df.seleccionar]
    rw [h1, h2]
  · intro j
    have hcol2 : df2.cols.getD j "" =
        (((labels.flatMap (posicionesDe df.cols))[j]?).map
          (fun i => df.cols.getD i "")).getD "" := by
      conv_lhs => rw [← h]
      simp [Df.seleccionar, List.getD_eq_getElem?_getD, List.getElem?_map]
    have hcel2 : fila2.getD j Cell.na =
        (((labels.flatMap (posicionesDe df.cols))[j]?).map
          (fun i => fila.getD i Cell.na)).getD Cell.na := by
      rw [← hmapa]
      simp [List.getD_eq_getElem?_getD, List.getElem?_map]
    rcases hp : (labels.flatMap (posicionesDe df.cols))[j]? with _ | i
    · left
      rw [hcol2, hcel2, hp]
      exact ⟨rfl, rfl⟩
    · right
      refine ⟨i, ?_, ?_⟩
      · rw [hcol2, hp]; rfl
      · rw [hcel2, hp]; rfl

/-- A cell-wise transformation keeps the columns and rewrites every row
position-wise, normalising the row length to the column count. -/
lemma transformar_spec (df : Df) (f : String → Cell → Cell) :
    (df.transformar f).cols = df.cols ∧
    ∀ fila2 ∈ (df.transformar f).filas, ∃ fila ∈ df.filas,
      fila2.length = df.cols.length ∧
      ∀ i, fila2.getD i Cell.na =
        if i < df.cols.length then f (df.cols.getD i "") (fila.getD i Cell.na)
        else Cell.na := by
  refine ⟨rfl, ?_⟩
  intro fila2 h2
  simp only [Df.transformar, List.mem_map] at h2
  obtain ⟨fila, hf, hm⟩ := h2
  refine ⟨fila, hf, ?_, ?_⟩
  · rw [← hm]
    simp
  · intro i
    by_cases hi : i < df.cols.length
    · rw [if_pos hi, ← hm, List.getD_eq_getElem?_getD, List.getElem?_map,
        List.getElem?_range hi]
      rfl
    · rw [if_neg hi, ← hm, List.getD_eq_getElem?_getD, List.getElem?_map]
      have hnone : (List.range df.cols.length)[i]? = none := by
        rw [List.getElem?_eq_none]
        simpa using Nat.le_of_not_lt hi
      rw [hnone]
      rfl

/-- The numeric coercion always produces a number or a missing value. -/
lemma aNumericoConComa_num_o_na (c : Cell) :
    celdaNumONa (aNumericoConComa c) = true := by
  cases c with
  | num q => rfl
  | na => rfl
  | fecha t => rfl
  | str s =>
    simp only [aNumericoConComa, aNumerico]
    rcases parsearNumero (cambiarComaPorPunto s) with _ | q <;> rfl

/-- The date coercion always produces a datetime or a missing value. -/
lemma aFechaFormato_fecha_o_na (c : Cell) :
    aFechaFormato c = Cell.na ∨ esCeldaFecha (aFechaFormato c) = true := by
  cases c with
  | num q => left; rfl
  | na => left; rfl
  | fecha t => right; rfl
  | str s =>
    simp only [aFechaFormato]
    rcases parsearFechaYmdHM s with _ | t
    · left; rfl
    · right; rfl

/-- After selecting the expected columns, coercing numerics and dates,
and dropping rows with invalid dates, every row has 9 cells, every
`salinidad`/`temperatura` column holds a number or a missing value, and
the `fecha_hora` column holds a valid datetime. -/
lemma tuberia_media (df3 : Df) (hcols : df3.cols = COLUMNAS_ESPERADAS) :
    (quedarseFechasValidas (coercionFecha (coercionNumerica df3))).cols =
      COLUMNAS_ESPERADAS ∧
    ∀ fila ∈ (quedarseFechasValidas (coercionFecha (coercionNumerica df3))).filas,
      fila.length = 9 ∧
      (∀ i, colNumerica (COLUMNAS_ESPERADAS.getD i "") = true →
        celdaNumONa (fila.getD i Cell.na) = true) ∧
      (∀ i, COLUMNAS_ESPERADAS.getD i "" = "fecha_hora" →
        esCeldaFecha (fila.getD i Cell.na) = true) := by
  have h4 := transformar_spec df3
    (fun c celda => if colNumerica c then aNumericoConComa celda else celda)
  have h5 := transformar_spec (coercionNumerica df3)
    (fun c celda => if c == "fecha_hora" then aFechaFormato celda else celda)
  have hc4 : (coercionNumerica df3).cols = COLUMNAS_ESPERADAS := by
    rw [coercionNumerica, h4.1, hcols]
  have hlen9 : COLUMNAS_ESPERADAS.length = 9 := rfl
  constructor
  · exact hc4
  · intro fila hmem
    have hidx : (coercionFecha (coercionNumerica df3)).cols.findIdx
        (fun c => c == "fecha_hora") = 0 := by
      show (coercionNumerica df3).cols.findIdx (fun c => c == "fecha_hora") = 0
      rw [hc4]
      rfl
    have hmem2 : fila ∈ (coercionFecha (coercionNumerica df3)).filas ∧
        (match fila.getD 0 Cell.na with
          | Cell.na => false
          | _ => true) = true := by
      have := hmem
      simp only [quedarseFechasValidas, List.mem_filter, hidx] at this
      exact this
    obtain ⟨fila4, hf4, hlen5, hcell5⟩ := h5.2 fila hmem2.1
    obtain ⟨fila3, _, hlen4, hcell4⟩ := h4.2 fila4 hf4
    rw [hc4, hlen9] at hlen5 hcell5
    rw [hcols, hlen9] at hlen4 hcell4
    refine ⟨hlen5, ?_, ?_⟩
    · intro i hni
      by_cases hi : i < 9
      · have hnofecha : ((COLUMNAS_ESPERADAS.getD i "" == "fecha_hora") : Bool) = false := by
          by_cases hb : (COLUMNAS_ESPERADAS.getD i "" == "fecha_hora") = true
          · rw [eq_of_beq hb] at hni
            exact absurd hni (by decide)
          · simpa using hb
        rw [hcell5 i, if_pos hi, hnofecha]
        simp only [Bool.false_eq_true, if_false]
        rw [hcell4 i, if_pos hi, hni]
        simp only [if_true]
        exact aNumericoConComa_num_o_na (fila3.getD i Cell.na)
      · have : COLUMNAS_ESPERADAS.getD i "" = "" := by
          apply List.getD_eq_default
          omega
        rw [this] at hni
        exact absurd hni (by decide)
    · intro i hfi
      by_cases hi : i < 9
      · have hi0 : i = 0 := by
          have huniq : ∀ j, j < 9 → COLUMNAS_ESPERADAS.getD j "" = "fecha_hora" → j = 0 := by
            decide
          exact huniq i hi hfi
        subst hi0
        have hbeq : ((COLUMNAS_ESPERADAS.getD 0 "" == "fecha_hora") : Bool) = true := by
          decide
        have hval : fila.getD 0 Cell.na = aFechaFormato (fila4.getD 0 Cell.na) := by
          rw [hcell5 0, if_pos (by omega : (0:Nat) < 9), hbeq]
          simp only [if_true]
        rcases aFechaFormato_fecha_o_na (fila4.getD 0 Cell.na) with hna | hok
        · rw [hval, hna] at hmem2
          exact absurd hmem2.2 (by simp)
        · rw [hval]
          exact hok
      · have hdef : COLUMNAS_ESPERADAS.getD i "" = "" := by
          apply List.getD_eq_default
          omega
        rw [hdef] at hfi
        exact absurd hfi (by decide)

/-- Adding the station metadata preserves the cell invariants and makes
every `estacion` cell the station string. -/
lemma metadatos_invariantes (st : String) (la lo : ℚ) (df7 : Df)
    (hcols : df7.cols = COLUMNAS_ESPERADAS)
    (hfilas : ∀ fila ∈ df7.filas,
      fila.length = 9 ∧
      (∀ i, colNumerica (COLUMNAS_ESPERADAS.getD i "") = true →
        celdaNumONa (fila.getD i Cell.na) = true) ∧
      (∀ i, COLUMNAS_ESPERADAS.getD i "" = "fecha_hora" →
        esCeldaFecha (fila.getD i Cell.na) = true)) :
    (agregarMetadatos df7 st la lo).cols =
      COLUMNAS_ESPERADAS ++ ["estacion", "lat", "lon"] ∧
    ∀ fila2 ∈ (agregarMetadatos df7 st la lo).filas, ∀ i,
      (colNumerica ((agregarMetadatos df7 st la lo).cols.getD i "") = true →
        celdaNumONa (fila2.getD i Cell.na) = true) ∧
      ((agregarMetadatos df7 st la lo).cols.getD i "" = "fecha_hora" →
        esCeldaFecha (fila2.getD i Cell.na) = true) ∧
      ((agregarMetadatos df7 st la lo).cols.getD i "" = "estacion" →
        fila2.getD i Cell.na = Cell.str st) := by
  have hcols2 : (agregarMetadatos df7 st la lo).cols =
      COLUMNAS_ESPERADAS ++ ["estacion", "lat", "lon"] := by
    rw [agregarMetadatos, hcols]
  refine ⟨hcols2, ?_⟩
  intro fila2 hmem i
  simp only [agregarMetadatos, List.mem_map] at hmem
  obtain ⟨fila, hf, hm⟩ := hmem
  obtain ⟨hlen, hN, hF⟩ := hfilas fila hf
  have hL : COLUMNAS_ESPERADAS.length = 9 := rfl
  rw [hcols2]
  by_cases hi9 : i < 9
  · have hcget : (COLUMNAS_ESPERADAS ++ ["estacion", "lat", "lon"]).getD i "" =
        COLUMNAS_ESPERADAS.getD i "" := by
      apply List.getD_append
      omega
    have hfget : fila2.getD i Cell.na = fila.getD i Cell.na := by
      rw [← hm]
      apply List.getD_append
      omega
    rw [hcget, hfget]
    refine ⟨hN i, hF i, ?_⟩
    intro hest
    have : ∀ j, j < 9 → ¬ COLUMNAS_ESPERADAS.getD j "" = "estacion" := by decide
    exact absurd hest (this i hi9)
  · by_cases hi12 : i < 12
    · have hcget : (COLUMNAS_ESPERADAS ++ ["estacion", "lat", "lon"]).getD i "" =
          ["estacion", "lat", "lon"].getD (i - 9) "" := by
        have := List.getD_append_right COLUMNAS_ESPERADAS ["estacion", "lat", "lon"]
          "" i (by omega)
        rw [this, hL]
      have hfget : fila2.getD i Cell.na =
          [Cell.str st, Cell.num la, Cell.num lo].getD (i - 9) Cell.na := by
        rw [← hm]
        have := List.getD_append_right fila [Cell.str st, Cell.num la, Cell.num lo]
          Cell.na i (by omega)
        rw [this, hlen]
      rw [hcget, hfget]
      interval_cases i <;> exact ⟨by intro h; exact absurd h (by decide),
        by intro h; exact absurd h (by decide), by intro h; first | rfl | exact absurd h (by decide)⟩
    · have hcget : (COLUMNAS_ESPERADAS ++ ["estacion", "lat", "lon"]).getD i "" = "" := by
        apply List.getD_eq_default
        rw [List.length_append, hL]
        simp only [List.length_cons, List.length_nil]
        omega
      rw [hcget]
      exact ⟨by intro h; exact absurd h (by decide),
        by intro h; exact absurd h (by decide),
        by intro h; exact absurd h (by decide)⟩

/-- Whatever `validarLoop` returns, its frame component is the frame it
was given. -/
lemma validarLoop_ok_fst (df : Df) (st : String) :
    ∀ (l : List (String × ℚ × ℚ)) (acc : List (String × Nat))
      (out : Df × List (String × Nat)),
      validarLoop df st l acc = .ok out → out.1 = df := by
  intro l
  induction l with
  | nil =>
    intro acc out h
    simp only [validarLoop] at h
    cases h
    rfl
  | cons p resto ih =>
    intro acc out h
    obtain ⟨col, lo, hi⟩ := p
    simp only [validarLoop] at h
    by_cases hdup : 2 ≤ df.cols.count col
    · simp [hdup] at h
    · simp only [hdup, if_false] at h
      by_cases hmem : df.cols.contains col
      · simp only [hmem, if_true] at h
        rcases hc : contarFuera (columnaCeldas df col) lo hi with u | n
        · rw [hc] at h; cases h
        · rw [hc] at h
          exact ih _ out h
      · simp only [hmem, Bool.false_eq_true, if_false] at h
        exact ih _ out h

/-- Full specification of a successful `procesar_archivo` run: the
output columns are exactly `cols_ordenadas`; every row has that many
cells; every `salinidad`/`temperatura` column holds a number or a
missing value; the `fecha_hora` cell (index 3) is a valid datetime; and
the `estacion` cell (index 0) is the detected station. -/
lemma procesar_archivo_spec (filename : String) (raw : Df) (df' : Df) (st : String)
    (hst : detectarEstacion filename = some st)
    (h : procesar_archivo filename raw = some df') :
    df'.cols = cols_ordenadas ∧
    ∀ fila ∈ df'.filas,
      fila.length = cols_ordenadas.length ∧
      (∀ i, colNumerica (df'.cols.getD i "") = true →
        celdaNumONa (fila.getD i Cell.na) = true) ∧
      esCeldaFecha (fila.getD 3 Cell.na) = true ∧
      fila.getD 0 Cell.na = Cell.str st := by
  unfold procesar_archivo at h
  simp only [hst] at h
  rcases hsel : seleccionarUnico
      (asegurarColumnas (normalizar_columnas ⟨raw.cols.map recortar, raw.filas⟩))
      COLUMNAS_ESPERADAS with _ | df3
  · rw [hsel] at h
    exact absurd h (by simp)
  rw [hsel] at h
  simp only [] at h
  rcases hval : validar_rangos (quedarseFechasValidas (coercionFecha (coercionNumerica df3))) st
      with u | out
  · rw [hval] at h
    exact absurd h (by simp)
  obtain ⟨df7, warns⟩ := out
  rw [hval] at h
  simp only [] at h
  rcases hco : (COORDENADAS.find? (fun p => p.1 == st)).map Prod.snd with _ | lalo
  · rw [hco] at h
    exact absurd h (by simp)
  obtain ⟨la, lo⟩ := lalo
  rw [hco] at h
  simp only [] at h
  have hmed := tuberia_media df3 (seleccionarUnico_spec _ _ _ hsel).1
  have hdf7 : df7 = quedarseFechasValidas (coercionFecha (coercionNumerica df3)) :=
    validarLoop_ok_fst _ _ RANGOS_VALIDOS [] (df7, warns) hval
  have hmeta := metadatos_invariantes st la lo df7 (by rw [hdf7]; exact hmed.1)
    (by rw [hdf7]; exact hmed.2)
  obtain ⟨hcolsF, hrowsF⟩ := seleccionarUnico_spec _ _ _ h
  refine ⟨hcolsF, ?_⟩
  intro fila hmem
  obtain ⟨fila8, hf8, hlenF, hcorr⟩ := hrowsF fila hmem
  refine ⟨hlenF, ?_, ?_, ?_⟩
  · intro i hni
    rcases hcorr i with ⟨hlab, hcel⟩ | ⟨i8, hlab, hcel⟩
    · rw [hlab] at hni
      exact absurd hni (by decide)
    · rw [hlab] at hni
      rw [hcel]
      exact (hmeta.2 fila8 hf8 i8).1 hni
  · have hlab3 : df'.cols.getD 3 "" = "fecha_hora" := by
      rw [hcolsF]
      rfl
    rcases hcorr 3 with ⟨hlab, hcel⟩ | ⟨i8, hlab, hcel⟩
    · rw [hlab3] at hlab
      exact absurd hlab.symm (by decide)
    · rw [hcel]
      exact (hmeta.2 fila8 hf8 i8).2.1 (by rw [← hlab, hlab3])
  · have hlab0 : df'.cols.getD 0 "" = "estacion" := by
      rw [hcolsF]
      rfl
    rcases hcorr 0 with ⟨hlab, hcel⟩ | ⟨i8, hlab, hcel⟩
    · rw [hlab0] at hlab
      exact absurd hlab.symm (by decide)
    · rw [hcel]
      exact (hmeta.2 fila8 hf8 i8).2.2 (by rw [← hlab, hlab0])

/-- C7: `validar_rangos` never modifies the data: whenever it returns
(no type error from comparing non-numeric cells, no ambiguous
duplicated column), the returned DataFrame is exactly the input —
out-of-range values are only counted in the warnings, never removed or
replaced. -/
theorem c7_validar_conserva_datos (df : Df) (st : String)
    (out : Df × List (String × Nat))
    (h : validar_rangos df st = .ok out) : out.1 = df :=
  validarLoop_ok_fst df st RANGOS_VALIDOS [] out h

/-- Witness for C7: a frame with an out-of-range salinity (99 PSU) comes
back unchanged, with the violation only counted in the warning list. -/
theorem c7_validar_conserva_datos_witness :
    validar_rangos ⟨["salinidad_1_5m"], [[.num 99]]⟩ "ribeira" =
      .ok (⟨["salinidad_1_5m"], [[.num 99]]⟩, [("ribeira - salinidad_1_5m", 1)]) ∧
    (⟨["salinidad_1_5m"], [[Cell.num 99]]⟩,
      [("ribeira - salinidad_1_5m", 1)]).1 = (⟨["salinidad_1_5m"], [[.num 99]]⟩ : Df) := by
  constructor
  · rfl
  · exact c7_validar_conserva_datos ⟨["salinidad_1_5m"], [[.num 99]]⟩ "ribeira"
      (⟨["salinidad_1_5m"], [[.num 99]]⟩, [("ribeira - salinidad_1_5m", 1)]) rfl

/-- C9: every non-`None` DataFrame returned by `procesar_archivo` has
exactly the columns `['estacion', 'lat', 'lon', 'fecha_hora']` followed
by the eight expected data/QC columns in that fixed order; every
salinity/temperature column holds only numbers or missing values
(non-numeric values were coerced to `NaN`); and every row has a valid
(non-`NaT`) `fecha_hora`, rows with unparseable dates having been
dropped. -/
theorem c9_esquema_salida (filename : String) (raw : Df) (df' : Df)
    (h : procesar_archivo filename raw = some df') :
    df'.cols = ["estacion", "lat", "lon", "fecha_hora"] ++
      COLUMNAS_ESPERADAS.filter (fun c => c ≠ "fecha_hora") ∧
    ∀ fila ∈ df'.filas,
      fila.length = df'.cols.length ∧
      (∀ i, colNumerica (df'.cols.getD i "") = true →
        celdaNumONa (fila.getD i Cell.na) = true) ∧
      esCeldaFecha (fila.getD 3 Cell.na) = true := by
  rcases hst : detectarEstacion filename with _ | st
  · exfalso
    unfold procesar_archivo at h
    rw [hst] at h
    exact absurd h (by simp)
  obtain ⟨hcols, hrows⟩ := procesar_archivo_spec filename raw df' st hst h
  refine ⟨hcols, ?_⟩
  intro fila hm
  obtain ⟨hlen, hN, hF, _⟩ := hrows fila hm
  exact ⟨by rw [hcols]; exact hlen, hN, hF⟩

/-- A one-row Ribeira export used as concrete input (the salinity and
QC cells already numeric, as `read_csv(decimal=',')` parses them). -/
def rawEjemplo : Df :=
  ⟨["Data", "Salinidade superficial", "Validación"],
   [[Cell.str "2021/09/01 00:10", Cell.num 30, Cell.num 1]]⟩

/-- What `procesar_archivo` makes of `rawEjemplo`. -/
def dfEjemplo : Df :=
  ⟨cols_ordenadas,
   [[Cell.str "ribeira", Cell.num (Rat.mk' 42551633 1000000),
     Cell.num (Rat.mk' (-4473221) 500000),
     Cell.fecha 202109010010, Cell.num 30, Cell.num 1,
     Cell.na, Cell.na, Cell.na, Cell.na, Cell.na, Cell.na]]⟩

/-- Witness for C9: the concrete one-row file round-trips with the
claimed schema. -/
theorem c9_esquema_salida_witness :
    procesar_archivo "ribeira_x.csv" rawEjemplo = some dfEjemplo ∧
    (dfEjemplo.cols = ["estacion", "lat", "lon", "fecha_hora"] ++
        COLUMNAS_ESPERADAS.filter (fun c => c ≠ "fecha_hora") ∧
      ∀ fila ∈ dfEjemplo.filas,
        fila.length = dfEjemplo.cols.length ∧
        (∀ i, colNumerica (dfEjemplo.cols.getD i "") = true →
          celdaNumONa (fila.getD i Cell.na) = true) ∧
        esCeldaFecha (fila.getD 3 Cell.na) = true) := by
  constructor
  · rfl
  · exact c9_esquema_salida "ribeira_x.csv" rawEjemplo dfEjemplo rfl

/-- C6: file-name matching decides processing.  `procesar_archivo`
returns `None` for every file whose lower-cased name contains none of
the known station names (`'ribeira'`, `'cortegada'`); and any produced
frame carries, in every row, the station of the first matching name
(the `COORDENADAS` key order: `ribeira` before `cortegada`). -/
theorem c6_seleccion_por_nombre :
    (∀ filename raw, (∀ e ∈ COORDENADAS.map Prod.fst,
        contiene (pyLower filename) e = false) →
      procesar_archivo filename raw = none) ∧
    (∀ filename raw df', procesar_archivo filename raw = some df' →
      ∃ st, detectarEstacion filename = some st ∧
        ((st = "ribeira" ∧ contiene (pyLower filename) "ribeira" = true) ∨
         (st = "cortegada" ∧ contiene (pyLower filename) "ribeira" = false ∧
          contiene (pyLower filename) "cortegada" = true)) ∧
        ∀ fila ∈ df'.filas, fila.getD 0 Cell.na = Cell.str st) := by
  constructor
  · intro filename raw hno
    have hnone : detectarEstacion filename = none := by
      rw [detectarEstacion, List.find?_eq_none]
      intro e he
      rw [hno e he]
      simp
    unfold procesar_archivo
    rw [hnone]
  · intro filename raw df' h
    rcases hst : detectarEstacion filename with _ | st
    · exfalso
      unfold procesar_archivo at h
      rw [hst] at h
      exact absurd h (by simp)
    refine ⟨st, rfl, ?_, ?_⟩
    · have hfind := hst
      rw [detectarEstacion] at hfind
      have hmapk : COORDENADAS.map Prod.fst = ["ribeira", "cortegada"] := rfl
      rw [hmapk] at hfind
      by_cases hr : contiene (pyLower filename) "ribeira" = true
      · left
        rw [List.find?_cons_of_pos _ hr] at hfind
        exact ⟨(Option.some.injEq _ _ ▸ hfind).symm, hr⟩
      · rw [List.find?_cons_of_neg _ (by simpa using hr)] at hfind
        by_cases hc : contiene (pyLower filename) "cortegada" = true
        · right
          rw [List.find?_cons_of_pos _ hc] at hfind
          exact ⟨(Option.some.injEq _ _ ▸ hfind).symm, by simpa using hr, hc⟩
        · exfalso
          rw [List.find?_cons_of_neg _ (by simpa using hc)] at hfind
          exact absurd hfind (by simp)
    · intro fila hm
      exact ((procesar_archivo_spec filename raw df' st hst h).2 fila hm).2.2.2

/-- Witness for C6: a file matching no station name is skipped. -/
theorem c6_seleccion_por_nombre_witness :
    procesar_archivo "otro.csv" ⟨["Data"], []⟩ = none :=
  c6_seleccion_por_nombre.1 "otro.csv" ⟨["Data"], []⟩ (by decide)

/-- A row of the unified table as `main` (lines 279–293) manipulates
it: the duplicate key `(estacion, fecha_hora)` plus the remaining
cells.  `fecha_hora` uses the base-100 datetime encoding, on which
numeric order is chronological order. -/
structure Registro where
  estacion : String
  fecha_hora : Nat
  resto : List Cell
deriving DecidableEq, Repr

/-- The `subset=['estacion', 'fecha_hora']` key. -/
def clave (r : Registro) : String × Nat := (r.estacion, r.fecha_hora)

/-- `drop_duplicates(subset=['estacion','fecha_hora'], keep='last')`
(lines 284–287): a row survives iff no later row shares its key;
surviving rows keep their relative order. -/
def drop_duplicates : List Registro → List Registro
  | [] => []
  | r :: resto =>
    if resto.any (fun s => clave s == clave r) then drop_duplicates resto
    else r :: drop_duplicates resto

/-- The `sort_values(by=['estacion', 'fecha_hora'])` comparison:
by station name, then chronologically. -/
def claveLe (a b : Registro) : Bool :=
  decide (a.estacion < b.estacion) ||
    (a.estacion == b.estacion && decide (a.fecha_hora ≤ b.fecha_hora))

/-- Lines 280–293 of `main`: `pd.concat` of the per-file frames in
processing order, key-deduplication keeping the last, sort by
`(estacion, fecha_hora)`.  (After deduplication keys are unique, so
any sorting algorithm yields the same key order as pandas'
quicksort.) -/
def consolidar (dfs : List (List Registro)) : List Registro :=
  (drop_duplicates dfs.flatten).mergeSort claveLe

/-- Deduplication only keeps input rows. -/
lemma drop_duplicates_subconjunto :
    ∀ (l : List Registro) (r : Registro), r ∈ drop_duplicates l → r ∈ l := by
  intro l
  induction l with
  | nil => intro r h; exact absurd h (by simp [drop_duplicates])
  | cons x resto ih =>
    intro r h
    rw [drop_duplicates] at h
    by_cases hany : resto.any (fun s => clave s == clave x) = true
    · rw [if_pos hany] at h
      exact List.mem_cons_of_mem x (ih r h)
    · rw [if_neg hany] at h
      rcases List.mem_cons.mp h with rfl | h2
      · exact List.mem_cons_self r resto
      · exact List.mem_cons_of_mem x (ih r h2)

/-- After deduplication, keys are pairwise distinct. -/
lemma drop_duplicates_claves_nodup :
    ∀ l : List Registro, ((drop_duplicates l).map clave).Nodup := by
  intro l
  induction l with
  | nil => simp [drop_duplicates]
  | cons x resto ih =>
    rw [drop_duplicates]
    by_cases hany : resto.any (fun s => clave s == clave x) = true
    · rw [if_pos hany]
      exact ih
    · rw [if_neg hany]
      rw [List.map_cons, List.nodup_cons]
      refine ⟨?_, ih⟩
      intro hmem
      obtain ⟨s, hs, hkey⟩ := List.mem_map.mp hmem
      have hsm : s ∈ resto := drop_duplicates_subconjunto resto s hs
      have : resto.any (fun s => clave s == clave x) = true := by
        rw [List.any_eq_true]
        exact ⟨s, hsm, by rw [hkey]; simp⟩
      exact absurd this hany

/-- `getLast?` steps over the head of a non-empty tail. -/
lemma getLast?_cons_ne_nil {α : Type} (a : α) (l : List α) (h : l ≠ []) :
    (a :: l).getLast? = l.getLast? := by
  cases l with
  | nil => exact absurd rfl h
  | cons b resto =>
    rw [show (a :: b :: resto).getLast? = some ((b :: resto).getLast?.getD a) from List.getLast?_cons]
    rcases hx : (b :: resto).getLast? with _ | x
    · exfalso
      rw [List.getLast?_cons] at hx
      exact Option.noConfusion hx
    · rfl

/-- Every surviving row is the last input row with its key. -/
lemma drop_duplicates_ultima :
    ∀ (l : List Registro) (r : Registro), r ∈ drop_duplicates l →
      (l.filter (fun s => clave s == clave r)).getLast? = some r := by
  intro l
  induction l with
  | nil => intro r h; exact absurd h (by simp [drop_duplicates])
  | cons x resto ih =>
    intro r h
    rw [drop_duplicates] at h
    by_cases hany : resto.any (fun s => clave s == clave x) = true
    · rw [if_pos hany] at h
      have hr := ih r h
      rw [List.filter_cons]
      by_cases hx : (clave x == clave r) = true
      · rw [if_pos hx]
        have hne : resto.filter (fun s => clave s == clave r) ≠ [] := by
          intro hnil
          rw [hnil] at hr
          exact Option.noConfusion hr
        rw [getLast?_cons_ne_nil x _ hne]
        exact hr
      · rw [if_neg hx]
        exact hr
    · rw [if_neg hany] at h
      rcases List.mem_cons.mp h with rfl | h2
      · have hfilnil : resto.filter (fun s => clave s == clave r) = [] := by
          rw [List.filter_eq_nil_iff]
          intro s hs
          intro hbeq
          exact hany (List.any_eq_true.mpr ⟨s, hs, hbeq⟩)
        rw [List.filter_cons, if_pos (by simp), hfilnil]
        rfl
      · have hkey : ¬ (clave x == clave r) = true := by
          intro hbeq
          have hrm : r ∈ resto := drop_duplicates_subconjunto resto r h2
          apply hany
          rw [List.any_eq_true]
          exact ⟨r, hrm, by rw [eq_of_beq hbeq]; simp⟩
        rw [List.filter_cons, if_neg hkey]
        exact ih r h2

/-- Every input key survives deduplication. -/
lemma drop_duplicates_cubre :
    ∀ (l : List Registro) (r : Registro), r ∈ l →
      ∃ v ∈ drop_duplicates l, clave v = clave r := by
  intro l
  induction l with
  | nil => intro r h; exact absurd h (by simp)
  | cons x resto ih =>
    intro r h
    rw [drop_duplicates]
    by_cases hany : resto.any (fun s => clave s == clave x) = true
    · rw [if_pos hany]
      rcases List.mem_cons.mp h with rfl | h2
      · obtain ⟨s, hs, hbeq⟩ := List.any_eq_true.mp hany
        obtain ⟨v, hv, hkv⟩ := ih s hs
        exact ⟨v, hv, by rw [hkv, eq_of_beq hbeq]⟩
      · exact ih r h2
    · rw [if_neg hany]
      rcases List.mem_cons.mp h with rfl | h2
      · exact ⟨r, List.mem_cons_self r _, rfl⟩
      · obtain ⟨v, hv, hkv⟩ := ih r h2
        exact ⟨v, List.mem_cons_of_mem x hv, hkv⟩

/-- The sort comparison is transitive. -/
lemma claveLe_trans (a b c : Registro) (hab : claveLe a b = true)
    (hbc : claveLe b c = true) : claveLe a c = true := by
  simp only [claveLe, Bool.or_eq_true, Bool.and_eq_true, decide_eq_true_eq,
    beq_iff_eq] at hab hbc ⊢
  rcases hab with h1 | ⟨h1, h1'⟩ <;> rcases hbc with h2 | ⟨h2, h2'⟩
  · exact Or.inl (lt_trans h1 h2)
  · exact Or.inl (h2 ▸ h1)
  · exact Or.inl (h1 ▸ h2)
  · exact Or.inr ⟨h1.trans h2, le_trans h1' h2'⟩

/-- The sort comparison is total. -/
lemma claveLe_total (a b : Registro) : (claveLe a b || claveLe b a) = true := by
  simp only [claveLe, Bool.or_eq_true, Bool.and_eq_true, decide_eq_true_eq,
    beq_iff_eq]
  rcases lt_trichotomy a.estacion b.estacion with h | h | h
  · tauto
  · rcases Nat.le_total a.fecha_hora b.fecha_hora with h2 | h2
    · exact Or.inl (Or.inr ⟨h, h2⟩)
    · exact Or.inr (Or.inr ⟨h.symm, h2⟩)
  · tauto

/-- C5: in the unified INTECMAR table there is at most one row per
`(estacion, fecha_hora)` pair; each kept row is the last occurrence of
its key in the concatenated (processing-order) input, so duplicates
keep the row of the last-processed file; the rows are sorted ascending
by `estacion`, then `fecha_hora`; and every input key is represented. -/
theorem c5_tabla_unificada (dfs : List (List Registro)) :
    ((consolidar dfs).map clave).Nodup ∧
    (∀ r ∈ consolidar dfs,
      ((dfs.flatten).filter (fun s => clave s == clave r)).getLast? = some r) ∧
    (consolidar dfs).Pairwise (fun a b => claveLe a b = true) ∧
    (∀ r ∈ dfs.flatten, ∃ v ∈ consolidar dfs, clave v = clave r) := by
  have hperm : List.Perm (consolidar dfs) (drop_duplicates dfs.flatten) :=
    List.mergeSort_perm (drop_duplicates dfs.flatten) claveLe
  refine ⟨?_, ?_, ?_, ?_⟩
  · exact (hperm.map clave).nodup_iff.mpr (drop_duplicates_claves_nodup dfs.flatten)
  · intro r hr
    exact drop_duplicates_ultima dfs.flatten r (hperm.mem_iff.mp hr)
  · exact List.sorted_mergeSort claveLe_trans claveLe_total (drop_duplicates dfs.flatten)
  · intro r hr
    obtain ⟨v, hv, hkv⟩ := drop_duplicates_cubre dfs.flatten r hr
    exact ⟨v, hperm.mem_iff.mpr hv, hkv⟩

/-- Witness for C5 at a concrete input: two files share the key
`("ribeira", 5)`; the kept row is the one from the last-processed
file. -/
theorem c5_tabla_unificada_witness :
    (([[⟨"ribeira", 5, []⟩, ⟨"cortegada", 3, []⟩],
        [⟨"ribeira", 5, [Cell.num 1]⟩]] : List (List Registro)).flatten.filter
      (fun s => clave s == clave ⟨"ribeira", 5, [Cell.num 1]⟩)).getLast? =
      some ⟨"ribeira", 5, [Cell.num 1]⟩ := by
  refine (c5_tabla_unificada
    [[⟨"ribeira", 5, []⟩, ⟨"cortegada", 3, []⟩],
     [⟨"ribeira", 5, [Cell.num 1]⟩]]).2.1 ⟨"ribeira", 5, [Cell.num 1]⟩ ?_
  exact (List.mergeSort_perm _ claveLe).mem_iff.mpr (by decide)

end Intecmar

end TfmArousa
